import Mathlib

/-!
Shallow embedding of the Blocinfra pharma chaincode
(`test-network/chaincodeV2/pharma.go`).

Entities are serialized as flat JSON documents in a single key space.
`JDoc` models such a document: it has one field for every JSON key used by
any of the five entity kinds; a key that is absent from a concrete document
is modelled by the Go zero value ("" / [] / 0).  Unmarshalling a document
into one of the Go structs (`Strip`, `Box`, ...) picks out that struct's
fields (`JDoc.toStrip`, ...); marshalling a struct back produces a document
whose other fields are zero (`Strip.toJDoc`, ...), exactly as
`encoding/json` drops unknown keys on the way in and emits only the struct's
keys on the way out.

The ledger is modelled as the full append-only log of Fabric: a list of
(key, history entry) pairs, newest first.  A key's history is the sublist
for that key (newest first, as `GetHistoryForKey` delivers it); its world
state is the value of the newest entry, absent if that entry is a tombstone.
`GetState` inside a transaction reads the snapshot taken at the start of the
invocation (Fabric's `PutState` is not visible to later `GetState` calls of
the same transaction), so every operation reads from its input ledger and
returns a new ledger with its writes appended; a failing operation returns
no ledger at all, which models Fabric discarding all writes of a failed
invocation.  Timestamps are `Nat`, transaction ids are `String`.
-/

namespace Pharma

/-- DocType constant `"strip"` from pharma.go. -/
def DocTypeStrip : String := "strip"
/-- DocType constant `"box"` from pharma.go. -/
def DocTypeBox : String := "box"
/-- DocType constant `"carton"` from pharma.go. -/
def DocTypeCarton : String := "carton"
/-- DocType constant `"shipment"` from pharma.go. -/
def DocTypeShipment : String := "shipment"
/-- DocType constant `"order"` from pharma.go. -/
def DocTypeOrder : String := "order"

/-- Status constant `"CREATED"`. -/
def StatusCreated : String := "CREATED"
/-- Status constant `"SEALED"`. -/
def StatusSealed : String := "SEALED"
/-- Status constant `"IN_ORDER"`. -/
def StatusInOrder : String := "IN_ORDER"
/-- Status constant `"DISPATCHED"`. -/
def StatusDispatched : String := "DISPATCHED"
/-- Status constant `"SHIPPED"`. -/
def StatusShipped : String := "SHIPPED"
/-- Status constant `"DELIVERED"`. -/
def StatusDelivered : String := "DELIVERED"

/-- A flat JSON document: one field per JSON key used by any entity kind.
An absent key is represented by the Go zero value. -/
structure JDoc where
  docType : String := ""
  id : String := ""
  batchNumber : String := ""
  medicineType : String := ""
  mfgDate : String := ""
  expDate : String := ""
  status : String := ""
  boxId : String := ""
  strips : List String := []
  cartonId : String := ""
  boxes : List String := []
  shipmentId : String := ""
  cartons : List String := []
  orderId : String := ""
  distributor : String := ""
  distributedAt : Nat := 0
  itemType : String := ""
  itemIds : List String := []
  senderId : String := ""
  senderOrg : String := ""
  receiverId : String := ""
  receiverOrg : String := ""
  recipient : String := ""
  dispatchedAt : Nat := 0
  deliveredAt : Nat := 0
  creationTxId : String := ""
  createdAt : Nat := 0
  updatedAt : Nat := 0
deriving Repr, DecidableEq

/-- The document with every field at its zero value. -/
def emptyJDoc : JDoc := {}

/-- Go struct `Strip`. -/
structure Strip where
  docType : String
  id : String
  batchNumber : String
  medicineType : String
  mfgDate : String
  expDate : String
  status : String
  boxId : String
  creationTxId : String
  createdAt : Nat
  updatedAt : Nat
deriving Repr, DecidableEq

/-- Go struct `Box`. -/
structure Box where
  docType : String
  id : String
  strips : List String
  cartonId : String
  status : String
  creationTxId : String
  createdAt : Nat
  updatedAt : Nat
deriving Repr, DecidableEq

/-- Go struct `Carton`. -/
structure Carton where
  docType : String
  id : String
  boxes : List String
  shipmentId : String
  status : String
  creationTxId : String
  createdAt : Nat
  updatedAt : Nat
deriving Repr, DecidableEq

/-- Go struct `Shipment`. -/
structure Shipment where
  docType : String
  id : String
  cartons : List String
  orderId : String
  status : String
  distributor : String
  distributedAt : Nat
  creationTxId : String
  createdAt : Nat
  updatedAt : Nat
deriving Repr, DecidableEq

/-- Go struct `Order`. -/
structure Order where
  docType : String
  id : String
  itemType : String
  itemIds : List String
  senderId : String
  senderOrg : String
  receiverId : String
  receiverOrg : String
  recipient : String
  status : String
  dispatchedAt : Nat
  deliveredAt : Nat
  creationTxId : String
  createdAt : Nat
  updatedAt : Nat
deriving Repr, DecidableEq

/-- `json.Unmarshal` of a stored document into the `Strip` struct:
fields of the struct are read, everything else is dropped. -/
def JDoc.toStrip (j : JDoc) : Strip :=
  ⟨j.docType, j.id, j.batchNumber, j.medicineType, j.mfgDate, j.expDate,
   j.status, j.boxId, j.creationTxId, j.createdAt, j.updatedAt⟩

/-- `json.Marshal` of a `Strip`: only the struct's keys appear in the output
document, so every other field is the zero value. -/
def Strip.toJDoc (s : Strip) : JDoc :=
  { docType := s.docType, id := s.id, batchNumber := s.batchNumber,
    medicineType := s.medicineType, mfgDate := s.mfgDate, expDate := s.expDate,
    status := s.status, boxId := s.boxId, creationTxId := s.creationTxId,
    createdAt := s.createdAt, updatedAt := s.updatedAt }

/-- `json.Unmarshal` into the `Box` struct. -/
def JDoc.toBox (j : JDoc) : Box :=
  ⟨j.docType, j.id, j.strips, j.cartonId, j.status, j.creationTxId,
   j.createdAt, j.updatedAt⟩

/-- `json.Marshal` of a `Box`. -/
def Box.toJDoc (b : Box) : JDoc :=
  { docType := b.docType, id := b.id, strips := b.strips, cartonId := b.cartonId,
    status := b.status, creationTxId := b.creationTxId,
    createdAt := b.createdAt, updatedAt := b.updatedAt }

/-- `json.Unmarshal` into the `Carton` struct. -/
def JDoc.toCarton (j : JDoc) : Carton :=
  ⟨j.docType, j.id, j.boxes, j.shipmentId, j.status, j.creationTxId,
   j.createdAt, j.updatedAt⟩

/-- `json.Marshal` of a `Carton`. -/
def Carton.toJDoc (c : Carton) : JDoc :=
  { docType := c.docType, id := c.id, boxes := c.boxes, shipmentId := c.shipmentId,
    status := c.status, creationTxId := c.creationTxId,
    createdAt := c.createdAt, updatedAt := c.updatedAt }

/-- `json.Unmarshal` into the `Shipment` struct. -/
def JDoc.toShipment (j : JDoc) : Shipment :=
  ⟨j.docType, j.id, j.cartons, j.orderId, j.status, j.distributor,
   j.distributedAt, j.creationTxId, j.createdAt, j.updatedAt⟩

/-- `json.Marshal` of a `Shipment`. -/
def Shipment.toJDoc (s : Shipment) : JDoc :=
  { docType := s.docType, id := s.id, cartons := s.cartons, orderId := s.orderId,
    status := s.status, distributor := s.distributor, distributedAt := s.distributedAt,
    creationTxId := s.creationTxId, createdAt := s.createdAt, updatedAt := s.updatedAt }

/-- `json.Unmarshal` into the `Order` struct. -/
def JDoc.toOrder (j : JDoc) : Order :=
  ⟨j.docType, j.id, j.itemType, j.itemIds, j.senderId, j.senderOrg,
   j.receiverId, j.receiverOrg, j.recipient, j.status, j.dispatchedAt,
   j.deliveredAt, j.creationTxId, j.createdAt, j.updatedAt⟩

/-- `json.Marshal` of an `Order`. -/
def Order.toJDoc (o : Order) : JDoc :=
  { docType := o.docType, id := o.id, itemType := o.itemType, itemIds := o.itemIds,
    senderId := o.senderId, senderOrg := o.senderOrg, receiverId := o.receiverId,
    receiverOrg := o.receiverOrg, recipient := o.recipient, status := o.status,
    dispatchedAt := o.dispatchedAt, deliveredAt := o.deliveredAt,
    creationTxId := o.creationTxId, createdAt := o.createdAt, updatedAt := o.updatedAt }

/-- A ledger key. -/
abbrev Key := String

/-- One entry of a key's history, as `GetHistoryForKey` delivers it:
transaction id, timestamp, tombstone flag, and the written value
(`none` for a tombstone). -/
structure HistEntry where
  txId : String
  ts : Nat
  isDelete : Bool
  value : Option JDoc
deriving Repr, DecidableEq

/-- The ledger: the full append-only log, newest entries first. -/
structure Ledger where
  log : List (Key × HistEntry)
deriving Repr, DecidableEq

/-- The empty ledger. -/
def Ledger.empty : Ledger := ⟨[]⟩

/-- `GetHistoryForKey`: the key's entries, newest first. -/
def Ledger.getHistory (led : Ledger) (k : Key) : List HistEntry :=
  (led.log.filter (fun p => p.1 = k)).map Prod.snd

/-- `GetState`: the latest value of a key in world state — the value of the
newest history entry, absent if there is none or it is a tombstone. -/
def Ledger.getState (led : Ledger) (k : Key) : Option JDoc :=
  match led.getHistory k with
  | [] => none
  | e :: _ => if e.isDelete then none else e.value

/-- The transaction context: `GetTxID` and `GetTxTimestamp`. -/
structure TxCtx where
  txId : String
  ts : Nat
deriving Repr, DecidableEq

/-- `PutState`: append a (non-tombstone) write for the current transaction. -/
def Ledger.putState (led : Ledger) (ctx : TxCtx) (k : Key) (v : JDoc) : Ledger :=
  ⟨(k, ⟨ctx.txId, ctx.ts, false, some v⟩) :: led.log⟩

/-- The errors the chaincode returns, one constructor per `fmt.Errorf` site
that the embedded operations can reach. -/
inductive Err where
  | alreadyExists (kind id : String)
  | parseFailed (what : String)
  | notFound (kind id : String)
  | alreadyAssigned (childKind childId parentKind parentId : String)
  | notAShipment (id : String)
  | emptyShipments
  | notFoundInBlockchain (id : String)
  | noItemWithCreationTxId (tx : String)
  | txNotFound (tx : String)
deriving Repr, DecidableEq

/-- The human-readable message of each error, as `fmt.Errorf` formats it. -/
def errText : Err → String
  | .alreadyExists kind id => kind ++ " " ++ id ++ " already exists"
  | .parseFailed what => "failed to parse " ++ what
  | .notFound kind id => kind ++ " " ++ id ++ " does not exist"
  | .alreadyAssigned childKind childId parentKind parentId =>
      childKind ++ " " ++ childId ++ " is already in " ++ parentKind ++ " " ++ parentId
  | .notAShipment id => "item " ++ id ++ " is not a shipment"
  | .emptyShipments => "at least one shipment must be selected"
  | .notFoundInBlockchain id => "item " ++ id ++ " not found in blockchain"
  | .noItemWithCreationTxId tx => "no item found with creationTxId " ++ tx
  | .txNotFound tx => "transaction " ++ tx ++ " not found"

/-! ## Mutating operations (Containment Engine and Order Workflow) -/

/-- The updated strip written by `SealBox`'s loop (pharma.go lines 216-218):
assign the box, set status `SEALED`, refresh `updatedAt`; marshalled back. -/
def sealedStrip (ctx : TxCtx) (boxID : String) (j : JDoc) : JDoc :=
  ({ j.toStrip with boxId := boxID, status := StatusSealed, updatedAt := ctx.ts } : Strip).toJDoc

/-- The updated box written by `SealCarton`'s loop (pharma.go lines 300-302). -/
def sealedBox (ctx : TxCtx) (cartonID : String) (j : JDoc) : JDoc :=
  ({ j.toBox with cartonId := cartonID, status := StatusSealed, updatedAt := ctx.ts } : Box).toJDoc

/-- The updated carton written by `SealShipment`'s loop (pharma.go lines 384-386). -/
def sealedCarton (ctx : TxCtx) (shipmentID : String) (j : JDoc) : JDoc :=
  ({ j.toCarton with shipmentId := shipmentID, status := StatusSealed, updatedAt := ctx.ts } : Carton).toJDoc

/-- The updated shipment written by `CreateOrder`'s loop (pharma.go lines 836-839). -/
def inOrderShipment (ctx : TxCtx) (orderID : String) (j : JDoc) : JDoc :=
  ({ j.toShipment with orderId := orderID, status := StatusInOrder, updatedAt := ctx.ts } : Shipment).toJDoc

/-- The updated shipment written by `DistributeShipment` (pharma.go lines 452-456). -/
def shippedShipment (ctx : TxCtx) (distributor : String) (j : JDoc) : Shipment :=
  { j.toShipment with status := StatusShipped, distributor := distributor, distributedAt := ctx.ts, updatedAt := ctx.ts }

/-- The updated order written by `DispatchOrder` (pharma.go lines 904-907). -/
def dispatchedOrder (ctx : TxCtx) (j : JDoc) : Order :=
  { j.toOrder with status := StatusDispatched, dispatchedAt := ctx.ts, updatedAt := ctx.ts }

/-- The updated order written by `DeliverOrder` (pharma.go lines 943-946). -/
def deliveredOrder (ctx : TxCtx) (j : JDoc) : Order :=
  { j.toOrder with status := StatusDelivered, deliveredAt := ctx.ts, updatedAt := ctx.ts }

/-- `CreateStrip` (pharma.go lines 134-178). -/
def CreateStrip (ctx : TxCtx) (led : Ledger) (id batchNumber medicineType mfgDate expDate : String) :
    Except Err (Strip × Ledger) :=
  if (led.getState id).isSome then .error (.alreadyExists DocTypeStrip id)
  else
    let strip : Strip :=
      ⟨DocTypeStrip, id, batchNumber, medicineType, mfgDate, expDate,
       StatusCreated, "", ctx.txId, ctx.ts, ctx.ts⟩
    .ok (strip, led.putState ctx id strip.toJDoc)

/-- The strip-updating loop of `SealBox` (pharma.go lines 196-229).
Reads go to `snap`, the snapshot at invocation; writes accumulate in `led`. -/
def sealBoxLoop (ctx : TxCtx) (snap : Ledger) (boxID : String) :
    List String → Ledger → Except Err Ledger
  | [], led => .ok led
  | stripID :: rest, led =>
    match snap.getState stripID with
    | none => .error (.notFound DocTypeStrip stripID)
    | some j =>
      if j.toStrip.boxId ≠ "" then
        .error (.alreadyAssigned DocTypeStrip stripID DocTypeBox j.toStrip.boxId)
      else
        sealBoxLoop ctx snap boxID rest (led.putState ctx stripID (sealedStrip ctx boxID j))

/-- `SealBox` (pharma.go lines 180-262).  The `stripIDs?` argument models the
`stripIDsJSON` string after `json.Unmarshal`: `none` is an unparseable string. -/
def SealBox (ctx : TxCtx) (led : Ledger) (boxID : String) (stripIDs? : Option (List String)) :
    Except Err (Box × Ledger) :=
  if (led.getState boxID).isSome then .error (.alreadyExists DocTypeBox boxID)
  else
    match stripIDs? with
    | none => .error (.parseFailed "strip IDs")
    | some stripIDs =>
      match sealBoxLoop ctx led boxID stripIDs led with
      | .error e => .error e
      | .ok led1 =>
        let box : Box :=
          ⟨DocTypeBox, boxID, stripIDs, "", StatusCreated, ctx.txId, ctx.ts, ctx.ts⟩
        .ok (box, led1.putState ctx boxID box.toJDoc)

/-- The box-updating loop of `SealCarton` (pharma.go lines 280-313). -/
def sealCartonLoop (ctx : TxCtx) (snap : Ledger) (cartonID : String) :
    List String → Ledger → Except Err Ledger
  | [], led => .ok led
  | boxID :: rest, led =>
    match snap.getState boxID with
    | none => .error (.notFound DocTypeBox boxID)
    | some j =>
      if j.toBox.cartonId ≠ "" then
        .error (.alreadyAssigned DocTypeBox boxID DocTypeCarton j.toBox.cartonId)
      else
        sealCartonLoop ctx snap cartonID rest (led.putState ctx boxID (sealedBox ctx cartonID j))

/-- `SealCarton` (pharma.go lines 264-346). -/
def SealCarton (ctx : TxCtx) (led : Ledger) (cartonID : String) (boxIDs? : Option (List String)) :
    Except Err (Carton × Ledger) :=
  if (led.getState cartonID).isSome then .error (.alreadyExists DocTypeCarton cartonID)
  else
    match boxIDs? with
    | none => .error (.parseFailed "box IDs")
    | some boxIDs =>
      match sealCartonLoop ctx led cartonID boxIDs led with
      | .error e => .error e
      | .ok led1 =>
        let carton : Carton :=
          ⟨DocTypeCarton, cartonID, boxIDs, "", StatusCreated, ctx.txId, ctx.ts, ctx.ts⟩
        .ok (carton, led1.putState ctx cartonID carton.toJDoc)

/-- The carton-updating loop of `SealShipment` (pharma.go lines 364-397). -/
def sealShipmentLoop (ctx : TxCtx) (snap : Ledger) (shipmentID : String) :
    List String → Ledger → Except Err Ledger
  | [], led => .ok led
  | cartonID :: rest, led =>
    match snap.getState cartonID with
    | none => .error (.notFound DocTypeCarton cartonID)
    | some j =>
      if j.toCarton.shipmentId ≠ "" then
        .error (.alreadyAssigned DocTypeCarton cartonID DocTypeShipment j.toCarton.shipmentId)
      else
        sealShipmentLoop ctx snap shipmentID rest (led.putState ctx cartonID (sealedCarton ctx shipmentID j))

/-- `SealShipment` (pharma.go lines 348-429).  The Go literal leaves `OrderID`,
`Distributor` and `DistributedAt` unset, i.e. at their zero values. -/
def SealShipment (ctx : TxCtx) (led : Ledger) (shipmentID : String) (cartonIDs? : Option (List String)) :
    Except Err (Shipment × Ledger) :=
  if (led.getState shipmentID).isSome then .error (.alreadyExists DocTypeShipment shipmentID)
  else
    match cartonIDs? with
    | none => .error (.parseFailed "carton IDs")
    | some cartonIDs =>
      match sealShipmentLoop ctx led shipmentID cartonIDs led with
      | .error e => .error e
      | .ok led1 =>
        let shipment : Shipment :=
          ⟨DocTypeShipment, shipmentID, cartonIDs, "", StatusCreated, "", 0,
           ctx.txId, ctx.ts, ctx.ts⟩
        .ok (shipment, led1.putState ctx shipmentID shipment.toJDoc)

/-- `DistributeShipment` (pharma.go lines 431-469).  No status check is made. -/
def DistributeShipment (ctx : TxCtx) (led : Ledger) (shipmentID distributor : String) :
    Except Err (Shipment × Ledger) :=
  match led.getState shipmentID with
  | none => .error (.notFound DocTypeShipment shipmentID)
  | some j =>
    .ok (shippedShipment ctx distributor j,
         led.putState ctx shipmentID (shippedShipment ctx distributor j).toJDoc)

/-- The shipment-updating loop of `CreateOrder` (pharma.go lines 816-849).
The only kind check of any operation: the fetched item must have
`docType == "shipment"`.  No check on the shipment's `orderId` or status. -/
def createOrderLoop (ctx : TxCtx) (snap : Ledger) (orderID : String) :
    List String → Ledger → Except Err Ledger
  | [], led => .ok led
  | itemID :: rest, led =>
    match snap.getState itemID with
    | none => .error (.notFound DocTypeShipment itemID)
    | some j =>
      if j.toShipment.docType ≠ DocTypeShipment then .error (.notAShipment itemID)
      else
        createOrderLoop ctx snap orderID rest (led.putState ctx itemID (inOrderShipment ctx orderID j))

/-- `CreateOrder` (pharma.go lines 787-881).  Rejects an empty id list; the Go
literal leaves `DispatchedAt` and `DeliveredAt` at their zero values. -/
def CreateOrder (ctx : TxCtx) (led : Ledger) (orderID : String) (itemIDs? : Option (List String))
    (senderId senderOrg receiverId receiverOrg : String) : Except Err (Order × Ledger) :=
  if (led.getState orderID).isSome then .error (.alreadyExists DocTypeOrder orderID)
  else
    match itemIDs? with
    | none => .error (.parseFailed "shipment IDs")
    | some itemIDs =>
      if itemIDs.length = 0 then .error .emptyShipments
      else
        match createOrderLoop ctx led orderID itemIDs led with
        | .error e => .error e
        | .ok led1 =>
          let recipient := receiverId ++ " (" ++ receiverOrg ++ ")"
          let order : Order :=
            ⟨DocTypeOrder, orderID, "shipment", itemIDs, senderId, senderOrg,
             receiverId, receiverOrg, recipient, StatusCreated, 0, 0,
             ctx.txId, ctx.ts, ctx.ts⟩
          .ok (order, led1.putState ctx orderID order.toJDoc)

/-- `DispatchOrder` (pharma.go lines 883-920).  No status check is made:
whatever the stored status, it is overwritten with `DISPATCHED`. -/
def DispatchOrder (ctx : TxCtx) (led : Ledger) (orderID : String) :
    Except Err (Order × Ledger) :=
  match led.getState orderID with
  | none => .error (.notFound DocTypeOrder orderID)
  | some j =>
    .ok (dispatchedOrder ctx j, led.putState ctx orderID (dispatchedOrder ctx j).toJDoc)

/-- `DeliverOrder` (pharma.go lines 922-959).  No status check is made. -/
def DeliverOrder (ctx : TxCtx) (led : Ledger) (orderID : String) :
    Except Err (Order × Ledger) :=
  match led.getState orderID with
  | none => .error (.notFound DocTypeOrder orderID)
  | some j =>
    .ok (deliveredOrder ctx j, led.putState ctx orderID (deliveredOrder ctx j).toJDoc)

/-! ## Current-state walk (`ScanBarcode`) -/

/-- `TraceResult` (pharma.go lines 109-117).  The Go fields hold typed structs
re-marshalled from the stored documents (so unrelated JSON keys are dropped),
except `children` of an order, which holds the raw documents. -/
structure TraceResult where
  itemType : String
  item : Option JDoc
  parent : Option JDoc
  grandParent : Option JDoc
  root : Option JDoc
  children : Option (List JDoc)
deriving Repr, DecidableEq

/-- Normalisation of a stored document through the `Strip` struct
(`json.Unmarshal` then use as a typed value). -/
def normStrip (j : JDoc) : JDoc := j.toStrip.toJDoc

/-- Normalisation through the `Box` struct. -/
def normBox (j : JDoc) : JDoc := j.toBox.toJDoc

/-- Normalisation through the `Carton` struct. -/
def normCarton (j : JDoc) : JDoc := j.toCarton.toJDoc

/-- Normalisation through the `Shipment` struct. -/
def normShipment (j : JDoc) : JDoc := j.toShipment.toJDoc

/-- `getStripParents` (pharma.go lines 535-573): ascend box → carton →
shipment, stopping at the first empty pointer or missing record. -/
def getStripParents (led : Ledger) (strip : Strip) :
    Option JDoc × Option JDoc × Option JDoc :=
  if strip.boxId = "" then (none, none, none)
  else
    match led.getState strip.boxId with
    | none => (none, none, none)
    | some bj =>
      let box := bj.toBox
      if box.cartonId = "" then (some box.toJDoc, none, none)
      else
        match led.getState box.cartonId with
        | none => (some box.toJDoc, none, none)
        | some cj =>
          let carton := cj.toCarton
          if carton.shipmentId = "" then (some box.toJDoc, some carton.toJDoc, none)
          else
            match led.getState carton.shipmentId with
            | none => (some box.toJDoc, some carton.toJDoc, none)
            | some sj => (some box.toJDoc, some carton.toJDoc, some sj.toShipment.toJDoc)

/-- `getBoxStrips` (pharma.go lines 575-586): fetch each strip in list order,
silently skipping missing records. -/
def getBoxStrips (led : Ledger) (box : Box) : List JDoc :=
  box.strips.filterMap (fun stripID => (led.getState stripID).map normStrip)

/-- `getBoxParents` (pharma.go lines 588-614). -/
def getBoxParents (led : Ledger) (box : Box) : Option JDoc × Option JDoc :=
  if box.cartonId = "" then (none, none)
  else
    match led.getState box.cartonId with
    | none => (none, none)
    | some cj =>
      let carton := cj.toCarton
      if carton.shipmentId = "" then (some carton.toJDoc, none)
      else
        match led.getState carton.shipmentId with
        | none => (some carton.toJDoc, none)
        | some sj => (some carton.toJDoc, some sj.toShipment.toJDoc)

/-- `getCartonBoxes` (pharma.go lines 616-627). -/
def getCartonBoxes (led : Ledger) (carton : Carton) : List JDoc :=
  carton.boxes.filterMap (fun boxID => (led.getState boxID).map normBox)

/-- `getCartonParent` (pharma.go lines 629-643). -/
def getCartonParent (led : Ledger) (carton : Carton) : Option JDoc :=
  if carton.shipmentId = "" then none
  else (led.getState carton.shipmentId).map normShipment

/-- `getShipmentCartons` (pharma.go lines 645-656). -/
def getShipmentCartons (led : Ledger) (shipment : Shipment) : List JDoc :=
  shipment.cartons.filterMap (fun cartonID => (led.getState cartonID).map normCarton)

/-- `getOrderItems` (pharma.go lines 658-669): fetch each referenced item as a
raw document (`map[string]interface{}`), one level only, skipping missing
records.  No recursion into the shipments' contents. -/
def getOrderItems (led : Ledger) (order : Order) : List JDoc :=
  order.itemIds.filterMap (fun itemID => led.getState itemID)

/-- `ScanBarcode` (pharma.go lines 471-532): the current-state walk. -/
def ScanBarcode (led : Ledger) (itemID : String) : Except Err TraceResult :=
  match led.getState itemID with
  | none => .error (.notFound "item" itemID)
  | some j =>
    let dt := j.docType
    if dt = DocTypeStrip then
      let strip := j.toStrip
      let p := getStripParents led strip
      .ok ⟨dt, some strip.toJDoc, p.1, p.2.1, p.2.2, none⟩
    else if dt = DocTypeBox then
      let box := j.toBox
      let p := getBoxParents led box
      .ok ⟨dt, some box.toJDoc, p.1, p.2, none, some (getBoxStrips led box)⟩
    else if dt = DocTypeCarton then
      let carton := j.toCarton
      .ok ⟨dt, some carton.toJDoc, getCartonParent led carton, none, none,
           some (getCartonBoxes led carton)⟩
    else if dt = DocTypeShipment then
      let shipment := j.toShipment
      .ok ⟨dt, some shipment.toJDoc, none, none, none, some (getShipmentCartons led shipment)⟩
    else if dt = DocTypeOrder then
      let order := j.toOrder
      .ok ⟨dt, some order.toJDoc, none, none, none, some (getOrderItems led order)⟩
    else
      .ok ⟨dt, none, none, none, none, none⟩

/-! ## History-based walk (blockchain-only trace functions) -/

/-- One rendered history record as the blockchain-only functions emit it
(pharma.go lines 1256-1261): the value is kept only for a non-tombstone
entry, mirroring the guarded `json.Unmarshal`. -/
structure HistRecordOut where
  txId : String
  ts : Nat
  isDelete : Bool
  value : Option JDoc
deriving Repr, DecidableEq

/-- Render one history entry for output (pharma.go lines 1246-1261). -/
def renderEntry (e : HistEntry) : HistRecordOut :=
  ⟨e.txId, e.ts, e.isDelete, if e.isDelete then none else e.value⟩

/-- The latest-value scan of `getLatestFromBlockchain` (pharma.go lines
1240-1254): walking the history newest first, the first record that is not a
tombstone and carries a value becomes the latest value. -/
def histLatestValue : List HistEntry → Option JDoc
  | [] => none
  | e :: rest =>
    if e.isDelete = false ∧ e.value.isSome then e.value else histLatestValue rest

/-- `getLatestFromBlockchain` (pharma.go lines 1227-1270): derive a key's
latest value purely from its change log; error if the log is empty or no
entry qualifies. -/
def getLatestFromBlockchain (led : Ledger) (itemID : Key) :
    Except Err (JDoc × List HistRecordOut) :=
  let hist := led.getHistory itemID
  match histLatestValue hist with
  | none => .error (.notFoundInBlockchain itemID)
  | some v => .ok (v, hist.map renderEntry)

/-- `BlockchainItemData` (pharma.go lines 1206-1212). -/
structure BlockchainItemData where
  itemId : String
  itemType : String
  current : JDoc
  history : List HistRecordOut
deriving Repr, DecidableEq

/-- `BlockchainTraceResult` (pharma.go lines 1214-1219). -/
structure BlockchainTraceResult where
  searchedItem : BlockchainItemData
  parents : List BlockchainItemData
  children : List BlockchainItemData
deriving Repr, DecidableEq

/-- `getBlockchainItemData` (pharma.go lines 1272-1287). -/
def getBlockchainItemData (led : Ledger) (itemID : Key) :
    Except Err BlockchainItemData :=
  match getLatestFromBlockchain led itemID with
  | .error e => .error e
  | .ok (current, history) => .ok ⟨itemID, current.docType, current, history⟩

/-- `getStripParentsFromBlockchain` (pharma.go lines 1289-1342): ascend
box → carton → shipment → order, each level resolved from history, stopping
at the first empty pointer or unresolvable key. -/
def getStripParentsFromBlockchain (led : Ledger) (stripData : JDoc) :
    List BlockchainItemData :=
  if stripData.boxId = "" then []
  else
    match getBlockchainItemData led stripData.boxId with
    | .error _ => []
    | .ok boxData =>
      if boxData.current.cartonId = "" then [boxData]
      else
        match getBlockchainItemData led boxData.current.cartonId with
        | .error _ => [boxData]
        | .ok cartonData =>
          if cartonData.current.shipmentId = "" then [boxData, cartonData]
          else
            match getBlockchainItemData led cartonData.current.shipmentId with
            | .error _ => [boxData, cartonData]
            | .ok shipmentData =>
              if shipmentData.current.orderId = "" then [boxData, cartonData, shipmentData]
              else
                match getBlockchainItemData led shipmentData.current.orderId with
                | .error _ => [boxData, cartonData, shipmentData]
                | .ok orderData => [boxData, cartonData, shipmentData, orderData]

/-- `getBoxChildrenFromBlockchain` (pharma.go lines 1344-1366): each strip in
list order, skipping keys that do not resolve from history. -/
def getBoxChildrenFromBlockchain (led : Ledger) (boxData : JDoc) :
    List BlockchainItemData :=
  boxData.strips.filterMap (fun stripID => (getBlockchainItemData led stripID).toOption)

/-- `getBoxParentsFromBlockchain` (pharma.go lines 1368-1406). -/
def getBoxParentsFromBlockchain (led : Ledger) (boxData : JDoc) :
    List BlockchainItemData :=
  if boxData.cartonId = "" then []
  else
    match getBlockchainItemData led boxData.cartonId with
    | .error _ => []
    | .ok cartonData =>
      if cartonData.current.shipmentId = "" then [cartonData]
      else
        match getBlockchainItemData led cartonData.current.shipmentId with
        | .error _ => [cartonData]
        | .ok shipmentData =>
          if shipmentData.current.orderId = "" then [cartonData, shipmentData]
          else
            match getBlockchainItemData led shipmentData.current.orderId with
            | .error _ => [cartonData, shipmentData]
            | .ok orderData => [cartonData, shipmentData, orderData]

/-- `getCartonChildrenFromBlockchain` (pharma.go lines 1408-1435): each box
followed by that box's strips. -/
def getCartonChildrenFromBlockchain (led : Ledger) (cartonData : JDoc) :
    List BlockchainItemData :=
  cartonData.boxes.flatMap (fun boxID =>
    match getBlockchainItemData led boxID with
    | .error _ => []
    | .ok boxData => boxData :: getBoxChildrenFromBlockchain led boxData.current)

/-- `getCartonParentsFromBlockchain` (pharma.go lines 1437-1466). -/
def getCartonParentsFromBlockchain (led : Ledger) (cartonData : JDoc) :
    List BlockchainItemData :=
  if cartonData.shipmentId = "" then []
  else
    match getBlockchainItemData led cartonData.shipmentId with
    | .error _ => []
    | .ok shipmentData =>
      if shipmentData.current.orderId = "" then [shipmentData]
      else
        match getBlockchainItemData led shipmentData.current.orderId with
        | .error _ => [shipmentData]
        | .ok orderData => [shipmentData, orderData]

/-- `getShipmentParentsFromBlockchain` (pharma.go lines 1468-1484). -/
def getShipmentParentsFromBlockchain (led : Ledger) (shipmentData : JDoc) :
    List BlockchainItemData :=
  if shipmentData.orderId = "" then []
  else
    match getBlockchainItemData led shipmentData.orderId with
    | .error _ => []
    | .ok orderData => [orderData]

/-- `getShipmentChildrenFromBlockchain` (pharma.go lines 1486-1513): each
carton followed by its boxes and strips. -/
def getShipmentChildrenFromBlockchain (led : Ledger) (shipmentData : JDoc) :
    List BlockchainItemData :=
  shipmentData.cartons.flatMap (fun cartonID =>
    match getBlockchainItemData led cartonID with
    | .error _ => []
    | .ok cartonData => cartonData :: getCartonChildrenFromBlockchain led cartonData.current)

/-- `getOrderChildrenFromBlockchain` (pharma.go lines 1515-1547): each
referenced item; when it is a shipment, also its full carton/box/strip
subtree. -/
def getOrderChildrenFromBlockchain (led : Ledger) (orderData : JDoc) :
    List BlockchainItemData :=
  orderData.itemIds.flatMap (fun itemID =>
    match getBlockchainItemData led itemID with
    | .error _ => []
    | .ok itemData =>
      if itemData.current.docType = DocTypeShipment then
        itemData :: getShipmentChildrenFromBlockchain led itemData.current
      else [itemData])

/-- `GetFullTraceFromBlockchain` (pharma.go lines 1549-1601). -/
def GetFullTraceFromBlockchain (led : Ledger) (itemID : Key) :
    Except Err BlockchainTraceResult :=
  match getBlockchainItemData led itemID with
  | .error e => .error e
  | .ok itemData =>
    let current := itemData.current
    let dt := itemData.itemType
    if dt = DocTypeStrip then
      .ok ⟨itemData, getStripParentsFromBlockchain led current, []⟩
    else if dt = DocTypeBox then
      .ok ⟨itemData, getBoxParentsFromBlockchain led current,
           getBoxChildrenFromBlockchain led current⟩
    else if dt = DocTypeCarton then
      .ok ⟨itemData, getCartonParentsFromBlockchain led current,
           getCartonChildrenFromBlockchain led current⟩
    else if dt = DocTypeShipment then
      .ok ⟨itemData, getShipmentParentsFromBlockchain led current,
           getShipmentChildrenFromBlockchain led current⟩
    else if dt = DocTypeOrder then
      .ok ⟨itemData, [], getOrderChildrenFromBlockchain led current⟩
    else
      .ok ⟨itemData, [], []⟩

/-! ## Lookup by creation transaction id -/

/-- The distinct keys the ledger has ever written, in order of their newest
entry (the enumeration order the state database's query iterator provides;
the lookups below rely on it only through uniqueness hypotheses). -/
def Ledger.keys (led : Ledger) : List Key :=
  (led.log.map Prod.fst).dedup

/-- The world state as an association list over `Ledger.keys`. -/
def Ledger.worldState (led : Ledger) : List (Key × JDoc) :=
  led.keys.filterMap (fun k => (led.getState k).map (fun j => (k, j)))

/-- `GetQueryResult` with an equality selector, modelled as a predicate
filter over the world state. -/
def Ledger.richQuery (led : Ledger) (p : JDoc → Bool) : List (Key × JDoc) :=
  led.worldState.filter (fun kv => p kv.2)

/-- The docType loop of `GetItemByCreationTxHash` (pharma.go lines 1610-1634):
for each kind in order, query for a document of that kind whose
`creationTxId` equals the target, returning the first hit. -/
def getItemByCreationTxHashLoop (led : Ledger) (txHash : String) :
    List String → Except Err JDoc
  | [] => .error (.noItemWithCreationTxId txHash)
  | dt :: rest =>
    match led.richQuery (fun j => j.docType = dt ∧ j.creationTxId = txHash) with
    | [] => getItemByCreationTxHashLoop led txHash rest
    | (_, j) :: _ => .ok j

/-- `GetItemByCreationTxHash` (pharma.go lines 1603-1637). -/
def GetItemByCreationTxHash (led : Ledger) (txHash : String) : Except Err JDoc :=
  getItemByCreationTxHashLoop led txHash
    [DocTypeStrip, DocTypeBox, DocTypeCarton, DocTypeShipment, DocTypeOrder]

/-- `TxHashTraceResult`'s `transactionInfo` map (pharma.go lines 1667-1674 and
1728-1735).  `timestamp` is `none` when the Go code leaves the formatted
string empty. -/
structure TxInfo where
  txId : String
  timestamp : Option Nat
  itemId : String
  itemType : String
  isDelete : Bool
  value : Option JDoc
deriving Repr, DecidableEq

/-- `TxHashTraceResult` (pharma.go lines 1221-1225). -/
structure TxHashTraceResult where
  transactionInfo : TxInfo
  traceability : BlockchainTraceResult
deriving Repr, DecidableEq

/-- The per-docType fallback scan of `GetTraceByTxHash` (pharma.go lines
1692-1752): for each document of the kind, search its entire history for an
entry whose transaction id is the target; first match wins. -/
def txFallbackScanItems (led : Ledger) (txHash : String) :
    List (Key × JDoc) → Option (Key × HistEntry)
  | [] => none
  | (k, _) :: rest =>
    match (led.getHistory k).find? (fun e => e.txId = txHash) with
    | some e => some (k, e)
    | none => txFallbackScanItems led txHash rest

/-- The docType loop of the fallback path of `GetTraceByTxHash`. -/
def txFallbackScanTypes (led : Ledger) (txHash : String) :
    List String → Except Err TxHashTraceResult
  | [] => .error (.txNotFound txHash)
  | dt :: rest =>
    match txFallbackScanItems led txHash (led.richQuery (fun j => j.docType = dt)) with
    | none => txFallbackScanTypes led txHash rest
    | some (k, e) =>
      match GetFullTraceFromBlockchain led k with
      | .error err => .error err
      | .ok tr =>
        .ok ⟨⟨e.txId, some e.ts, k, dt, e.isDelete,
              if e.value.isSome then e.value else none⟩, tr⟩

/-- `GetTraceByTxHash` (pharma.go lines 1639-1755).  PRIMARY path: resolve by
the `creationTxId` field and return that entity's history-based full trace.
FALLBACK path: full scan of every document's history, largest kind first. -/
def GetTraceByTxHash (led : Ledger) (txHash : String) : Except Err TxHashTraceResult :=
  match GetItemByCreationTxHash led txHash with
  | .ok item =>
    let itemId := item.id
    let creationTimestamp :=
      ((led.getHistory itemId).find? (fun e => e.txId = txHash)).map (fun e => e.ts)
    match GetFullTraceFromBlockchain led itemId with
    | .error err => .error err
    | .ok tr =>
      .ok ⟨⟨txHash, creationTimestamp, itemId, item.docType, false, some item⟩, tr⟩
  | .error _ =>
    txFallbackScanTypes led txHash
      [DocTypeShipment, DocTypeCarton, DocTypeBox, DocTypeStrip, DocTypeOrder]

/-! ## Derived notions used by the statements -/

/-- The ledger holds no tombstones and every entry carries a value.  This
holds for every ledger the chaincode itself produces (it never deletes);
tombstones can only come from external administrative deletes. -/
def NoDeletes (led : Ledger) : Prop :=
  ∀ p ∈ led.log, p.2.isDelete = false ∧ p.2.value.isSome

/-- Every live document's `creationTxId` equals the transaction id of the
oldest history entry of its key (the history is newest first, so that is
`getLast?`). -/
def CreationInv (led : Ledger) : Prop :=
  ∀ k j, led.getState k = some j →
    ((led.getHistory k).getLast?).map HistEntry.txId = some j.creationTxId

/-- During a transaction the accumulated ledger agrees with the invocation
snapshot on every key's `creationTxId` (in particular on which keys are
live). -/
def CreationAgree (snap led : Ledger) : Prop :=
  ∀ k, (led.getState k).map JDoc.creationTxId = (snap.getState k).map JDoc.creationTxId

/-- One successful invocation of any exposed mutating operation, with
arbitrary arguments. -/
inductive Step : TxCtx → Ledger → Ledger → Prop where
  | createStrip {ctx led led'} (id b m mf ex : String) (s : Strip) :
      CreateStrip ctx led id b m mf ex = .ok (s, led') → Step ctx led led'
  | sealBox {ctx led led'} (boxID : String) (ids : Option (List String)) (b : Box) :
      SealBox ctx led boxID ids = .ok (b, led') → Step ctx led led'
  | sealCarton {ctx led led'} (cartonID : String) (ids : Option (List String)) (c : Carton) :
      SealCarton ctx led cartonID ids = .ok (c, led') → Step ctx led led'
  | sealShipment {ctx led led'} (shipmentID : String) (ids : Option (List String)) (s : Shipment) :
      SealShipment ctx led shipmentID ids = .ok (s, led') → Step ctx led led'
  | distributeShipment {ctx led led'} (shipmentID dist : String) (s : Shipment) :
      DistributeShipment ctx led shipmentID dist = .ok (s, led') → Step ctx led led'
  | createOrder {ctx led led'} (orderID : String) (ids : Option (List String))
      (senderId senderOrg receiverId receiverOrg : String) (o : Order) :
      CreateOrder ctx led orderID ids senderId senderOrg receiverId receiverOrg = .ok (o, led') →
      Step ctx led led'
  | dispatchOrder {ctx led led'} (orderID : String) (o : Order) :
      DispatchOrder ctx led orderID = .ok (o, led') → Step ctx led led'
  | deliverOrder {ctx led led'} (orderID : String) (o : Order) :
      DeliverOrder ctx led orderID = .ok (o, led') → Step ctx led led'

/-- A ledger reachable from the empty ledger by the chaincode's operations. -/
inductive Reachable : Ledger → Prop where
  | empty : Reachable Ledger.empty
  | step {ctx led led'} : Reachable led → Step ctx led led' → Reachable led'

/-- One successful invocation of an exposed mutating operation used per the
containment contract of the spec (§4.2/§4.3): listed child ids and the
operation's target key refer to documents of the operation's kind.  (The Go
code checks the kind only in `CreateOrder`; for the other operations the
kind discipline is the caller's contract.) -/
inductive StepT : TxCtx → Ledger → Ledger → Prop where
  | createStrip {ctx led led'} (id b m mf ex : String) (s : Strip) :
      CreateStrip ctx led id b m mf ex = .ok (s, led') → StepT ctx led led'
  | sealBox {ctx led led'} (boxID : String) (ids : List String) (b : Box) :
      (∀ x ∈ ids, ∀ j, led.getState x = some j → j.docType = DocTypeStrip) →
      SealBox ctx led boxID (some ids) = .ok (b, led') → StepT ctx led led'
  | sealCarton {ctx led led'} (cartonID : String) (ids : List String) (c : Carton) :
      (∀ x ∈ ids, ∀ j, led.getState x = some j → j.docType = DocTypeBox) →
      SealCarton ctx led cartonID (some ids) = .ok (c, led') → StepT ctx led led'
  | sealShipment {ctx led led'} (shipmentID : String) (ids : List String) (s : Shipment) :
      (∀ x ∈ ids, ∀ j, led.getState x = some j → j.docType = DocTypeCarton) →
      SealShipment ctx led shipmentID (some ids) = .ok (s, led') → StepT ctx led led'
  | distributeShipment {ctx led led'} (shipmentID dist : String) (s : Shipment) :
      (∀ j, led.getState shipmentID = some j → j.docType = DocTypeShipment) →
      DistributeShipment ctx led shipmentID dist = .ok (s, led') → StepT ctx led led'
  | createOrder {ctx led led'} (orderID : String) (ids : Option (List String))
      (senderId senderOrg receiverId receiverOrg : String) (o : Order) :
      CreateOrder ctx led orderID ids senderId senderOrg receiverId receiverOrg = .ok (o, led') →
      StepT ctx led led'
  | dispatchOrder {ctx led led'} (orderID : String) (o : Order) :
      (∀ j, led.getState orderID = some j → j.docType = DocTypeOrder) →
      DispatchOrder ctx led orderID = .ok (o, led') → StepT ctx led led'
  | deliverOrder {ctx led led'} (orderID : String) (o : Order) :
      (∀ j, led.getState orderID = some j → j.docType = DocTypeOrder) →
      DeliverOrder ctx led orderID = .ok (o, led') → StepT ctx led led'

/-- A key's latest value derived from history alone, when it resolves. -/
def histDoc (led : Ledger) (k : Key) : Option JDoc :=
  match getLatestFromBlockchain led k with
  | .ok (v, _) => some v
  | .error _ => none

/-- Whether a key resolves from history. -/
def histOK (led : Ledger) (k : Key) : Bool :=
  (histDoc led k).isSome

/-- Specification-side subtree of a box in the history-based walk: the ids of
its strips that resolve from history, in list order. -/
def specBoxSubtreeIds (led : Ledger) (bid : Key) : List Key :=
  match histDoc led bid with
  | none => []
  | some b => b.strips.filter (fun a => histOK led a)

/-- Specification-side subtree of a carton: each resolving box followed by
that box's subtree. -/
def specCartonSubtreeIds (led : Ledger) (cid : Key) : List Key :=
  match histDoc led cid with
  | none => []
  | some c =>
    c.boxes.flatMap (fun b => if histOK led b then b :: specBoxSubtreeIds led b else [])

/-- Specification-side subtree of a shipment: each resolving carton followed
by that carton's subtree. -/
def specShipmentSubtreeIds (led : Ledger) (sid : Key) : List Key :=
  match histDoc led sid with
  | none => []
  | some s =>
    s.cartons.flatMap (fun c => if histOK led c then c :: specCartonSubtreeIds led c else [])

/-- The ids of the children of a current-state trace result. -/
def scanChildIds (r : TraceResult) : List String :=
  (r.children.getD []).map JDoc.id

/-- The ids of the children of a history-based trace result. -/
def traceChildIds (r : BlockchainTraceResult) : List String :=
  r.children.map BlockchainItemData.itemId

/-! ## Concrete scenarios used by witnesses and counterexamples -/

/-- Transaction context of the witness scenario for the creation-id claim. -/
def ctx8 : TxCtx := ⟨"tx8", 3⟩

/-- The strip created in that scenario. -/
def strip8 : Strip :=
  ⟨DocTypeStrip, "A1", "B01", "Med", "d1", "d2", StatusCreated, "", "tx8", 3, 3⟩

/-- The ledger after `CreateStrip` of `strip8` on the empty ledger. -/
def led8 : Ledger := ⟨[("A1", ⟨"tx8", 3, false, some strip8.toJDoc⟩)]⟩


/-- Order used by the frame-claim witness: an existing order with every field
populated. -/
def ord10 : Order :=
  ⟨DocTypeOrder, "O7", "shipment", ["S7"], "sender7", "OrgA", "recv7", "OrgB",
   "recv7 (OrgB)", StatusCreated, 0, 0, "tx7", 4, 4⟩

/-- Ledger holding `ord10`. -/
def led10 : Ledger := ⟨[("O7", ⟨"tx7", 4, false, some ord10.toJDoc⟩)]⟩

/-- Context for the frame-claim witness. -/
def ctx10 : TxCtx := ⟨"tx9", 9⟩


/-- Strips for the seal-box witness scenario. -/
def strip4a : Strip :=
  ⟨DocTypeStrip, "A1", "B01", "Med", "d1", "d2", StatusCreated, "", "txA1", 1, 1⟩

/-- Second strip of the seal-box witness scenario. -/
def strip4b : Strip :=
  ⟨DocTypeStrip, "A2", "B01", "Med", "d1", "d2", StatusCreated, "", "txA2", 2, 2⟩

/-- Ledger holding the two unassigned strips. -/
def led4 : Ledger :=
  ⟨[("A2", ⟨"txA2", 2, false, some strip4b.toJDoc⟩),
    ("A1", ⟨"txA1", 1, false, some strip4a.toJDoc⟩)]⟩

/-- Context for the seal-box witness. -/
def ctx4 : TxCtx := ⟨"txB1", 5⟩

/-- A shipment already claimed by order `OLD`, for the re-order scenario. -/
def ship9 : Shipment :=
  ⟨DocTypeShipment, "S1", ["C1"], "OLD", StatusInOrder, "", 0, "txS1", 2, 3⟩

/-- Ledger holding `ship9`. -/
def led9 : Ledger := ⟨[("S1", ⟨"txO1", 3, false, some ship9.toJDoc⟩)]⟩

/-- Context for the re-order witness. -/
def ctx9 : TxCtx := ⟨"txO2", 8⟩


/-- A strip already sealed into box `B1`, for the double-seal scenario. -/
def stripAssigned : Strip :=
  ⟨DocTypeStrip, "A1", "B01", "Med", "d1", "d2", StatusSealed, "B1", "txA1", 1, 2⟩

/-- Ledger holding `stripAssigned`. -/
def led3 : Ledger := ⟨[("A1", ⟨"txB1", 2, false, some stripAssigned.toJDoc⟩)]⟩

/-- Context for the double-seal scenario. -/
def ctx3 : TxCtx := ⟨"txB2", 6⟩


/-- The delivered order of the status-regression scenario. -/
def ordDelivered : Order :=
  ⟨DocTypeOrder, "O1", "shipment", ["S1"], "snd", "OA", "rcv", "OB", "rcv (OB)",
   StatusDelivered, 1, 2, "txO1", 1, 2⟩

/-- Ledger holding the delivered order. -/
def ledC1 : Ledger := ⟨[("O1", ⟨"txDel", 2, false, some ordDelivered.toJDoc⟩)]⟩

/-- A shipment already distributed (status `SHIPPED`). -/
def shipShipped : Shipment :=
  ⟨DocTypeShipment, "S8", ["C8"], "", StatusShipped, "DistCo", 6, "txS8", 2, 6⟩

/-- Ledger holding the shipped shipment. -/
def ledC1b : Ledger := ⟨[("S8", ⟨"txDist", 6, false, some shipShipped.toJDoc⟩)]⟩

/-- Context for the status-regression scenario. -/
def ctx1 : TxCtx := ⟨"txRegress", 9⟩

/-- Status of the entity returned by an order-returning operation, `none` on
error. -/
def resultStatus (r : Except Err (Order × Ledger)) : Option String :=
  match r with
  | .ok (o, _) => some o.status
  | .error _ => none

/-- Status of the document at a key in the ledger an order-returning
operation produced, `none` on error. -/
def postStatusOf (r : Except Err (Order × Ledger)) (k : Key) : Option String :=
  match r with
  | .ok (_, l) => (l.getState k).map JDoc.status
  | .error _ => none

/-- Whether a box-returning operation succeeded. -/
def isOkBox (r : Except Err (Box × Ledger)) : Bool :=
  match r with
  | .ok _ => true
  | .error _ => false

/-- The strips list of the box a box-returning operation produced. -/
def boxStripsOf (r : Except Err (Box × Ledger)) : Option (List String) :=
  match r with
  | .ok (b, _) => some b.strips
  | .error _ => none

/-- The document at a key in the ledger a box-returning operation produced. -/
def postStateOfBox (r : Except Err (Box × Ledger)) (k : Key) : Option JDoc :=
  match r with
  | .ok (_, l) => l.getState k
  | .error _ => none

/-- Context for the empty-seal scenario. -/
def ctx2 : TxCtx := ⟨"tx2", 4⟩


/-- A document stored under key `X` in the tombstone scenario. -/
def doc5 : JDoc := Strip.toJDoc ⟨DocTypeStrip, "X", "B", "M", "d1", "d2", StatusCreated, "", "tx2x", 2, 2⟩

/-- Ledger for the history scenario: key `X` has a tombstone (newest) over a
value-bearing write; key `Y` has only a tombstone. -/
def led5 : Ledger :=
  ⟨[("X", ⟨"tx3x", 3, true, none⟩),
    ("X", ⟨"tx2x", 2, false, some doc5⟩),
    ("Y", ⟨"tx1y", 1, true, none⟩)]⟩


/-- Strip of the full-chain scenario. -/
def stripA7 : Strip := ⟨DocTypeStrip, "A1", "B", "M", "d1", "d2", StatusSealed, "B1", "t1", 1, 2⟩

/-- Box of the full-chain scenario. -/
def boxB7 : Box := ⟨DocTypeBox, "B1", ["A1"], "C1", StatusSealed, "t2", 2, 3⟩

/-- Carton of the full-chain scenario. -/
def cartonC7 : Carton := ⟨DocTypeCarton, "C1", ["B1"], "S1", StatusSealed, "t3", 3, 4⟩

/-- Shipment of the full-chain scenario. -/
def shipS7 : Shipment := ⟨DocTypeShipment, "S1", ["C1"], "O1", StatusInOrder, "", 0, "t4", 4, 5⟩

/-- Order of the full-chain scenario. -/
def ordO7 : Order :=
  ⟨DocTypeOrder, "O1", "shipment", ["S1"], "snd", "OA", "rcv", "OB", "rcv (OB)",
   StatusCreated, 0, 0, "t5", 5, 5⟩

/-- Ledger of the full-chain scenario: one entry per entity. -/
def led7 : Ledger :=
  ⟨[("O1", ⟨"t5", 5, false, some ordO7.toJDoc⟩),
    ("S1", ⟨"t4", 5, false, some shipS7.toJDoc⟩),
    ("C1", ⟨"t3", 4, false, some cartonC7.toJDoc⟩),
    ("B1", ⟨"t2", 3, false, some boxB7.toJDoc⟩),
    ("A1", ⟨"t1", 2, false, some stripA7.toJDoc⟩)]⟩

/-- The order document of the full-chain scenario. -/
def jO7 : JDoc := ordO7.toJDoc


/-- Resolved item id of a trace-by-transaction lookup, `none` on error. -/
def txTraceItemId (r : Except Err TxHashTraceResult) : Option String :=
  match r with
  | .ok t => some t.transactionInfo.itemId
  | .error _ => none

/-- Descendant ids of a trace-by-transaction lookup, `none` on error. -/
def txTraceChildIds (r : Except Err TxHashTraceResult) : Option (List String) :=
  match r with
  | .ok t => some (traceChildIds t.traceability)
  | .error _ => none

/-- Descendant ids of a current-state scan, `none` on error. -/
def scanChildIdsOf (r : Except Err TraceResult) : Option (List String) :=
  match r with
  | .ok t => some (scanChildIds t)
  | .error _ => none

/-- The history-based full trace of order `O1` in the full-chain scenario. -/
def tr7 : BlockchainTraceResult :=
  match GetFullTraceFromBlockchain led7 "O1" with
  | .ok t => t
  | .error _ => ⟨⟨"", "", emptyJDoc, []⟩, [], []⟩

/-! ## Theorems -/

/-! ### Basic ledger lemmas -/

theorem getHistory_putState (led : Ledger) (ctx : TxCtx) (k : Key) (v : JDoc) (k' : Key) :
    (led.putState ctx k v).getHistory k' =
      if k' = k then (⟨ctx.txId, ctx.ts, false, some v⟩ : HistEntry) :: led.getHistory k'
      else led.getHistory k' := by
  unfold Ledger.putState Ledger.getHistory
  by_cases h : k' = k
  · subst h
    simp
  · simp only [List.filter_cons]
    have h2 : ¬ (k = k') := fun hk => h hk.symm
    simp [h, h2]

theorem getState_putState (led : Ledger) (ctx : TxCtx) (k : Key) (v : JDoc) (k' : Key) :
    (led.putState ctx k v).getState k' =
      if k' = k then some v else led.getState k' := by
  unfold Ledger.getState
  rw [getHistory_putState]
  by_cases h : k' = k
  · simp [h]
  · simp [h]

theorem mem_getHistory {led : Ledger} {k : Key} {e : HistEntry}
    (h : e ∈ led.getHistory k) : (k, e) ∈ led.log := by
  unfold Ledger.getHistory at h
  rcases List.mem_map.mp h with ⟨p, hp, rfl⟩
  rcases List.mem_filter.mp hp with ⟨hmem, hk⟩
  have : p.1 = k := by simpa using hk
  cases p
  simp_all

theorem getHistory_eq_nil_of_getState_none {led : Ledger} {k : Key}
    (hnd : NoDeletes led) (h : led.getState k = none) : led.getHistory k = [] := by
  unfold Ledger.getState at h
  cases hh : led.getHistory k with
  | nil => rfl
  | cons e rest =>
    exfalso
    rw [hh] at h
    have he : (k, e) ∈ led.log := mem_getHistory (hh ▸ List.mem_cons_self e rest)
    rcases hnd (k, e) he with ⟨hdel, hval⟩
    have hdel' : e.isDelete = false := hdel
    have hval' : e.value.isSome := hval
    rcases Option.isSome_iff_exists.mp hval' with ⟨j, hj⟩
    simp [hdel', hj] at h

theorem getState_some_head {led : Ledger} {k : Key} {j : JDoc}
    (h : led.getState k = some j) :
    ∃ e rest, led.getHistory k = e :: rest ∧ e.isDelete = false ∧ e.value = some j := by
  unfold Ledger.getState at h
  cases hh : led.getHistory k with
  | nil => rw [hh] at h; exact absurd h (by simp)
  | cons e rest =>
    rw [hh] at h
    by_cases hd : e.isDelete
    · simp [hd] at h
    · simp only [hd, if_neg, Bool.false_eq_true, not_false_iff, if_false] at h
      exact ⟨e, rest, rfl, by simpa using hd, h⟩

/-! ### Preservation of `NoDeletes` and `CreationInv` by writes -/

theorem noDeletes_putState {led : Ledger} (ctx : TxCtx) (k : Key) (v : JDoc)
    (hnd : NoDeletes led) : NoDeletes (led.putState ctx k v) := by
  intro p hp
  unfold Ledger.putState at hp
  rcases List.mem_cons.mp hp with h | h
  · subst h; exact ⟨rfl, rfl⟩
  · exact hnd p h

theorem creationInv_putState_mut {led : Ledger} {ctx : TxCtx} {k : Key} {v j0 : JDoc}
    (hinv : CreationInv led) (h0 : led.getState k = some j0)
    (hcr : v.creationTxId = j0.creationTxId) :
    CreationInv (led.putState ctx k v) := by
  intro k' j' h'
  rw [getState_putState] at h'
  rw [getHistory_putState]
  by_cases hk : k' = k
  · subst hk
    rw [if_pos rfl] at h'
    rw [if_pos rfl]
    rcases getState_some_head h0 with ⟨e0, rest, hh, _, _⟩
    rw [hh, List.getLast?_cons_cons]
    have := hinv k' j0 h0
    rw [hh] at this
    cases h'
    rw [this, hcr]
  · simp only [if_neg hk] at h' ⊢
    exact hinv k' j' h'

theorem creationInv_putState_new {led : Ledger} {ctx : TxCtx} {k : Key} {v : JDoc}
    (hnd : NoDeletes led) (hinv : CreationInv led) (h0 : led.getState k = none)
    (hcr : v.creationTxId = ctx.txId) :
    CreationInv (led.putState ctx k v) := by
  intro k' j' h'
  rw [getState_putState] at h'
  rw [getHistory_putState]
  by_cases hk : k' = k
  · subst hk
    simp only [if_pos rfl] at h' ⊢
    rw [getHistory_eq_nil_of_getState_none hnd h0]
    cases h'
    simp [hcr]
  · simp only [if_neg hk] at h' ⊢
    exact hinv k' j' h'

theorem creationAgree_refl (led : Ledger) : CreationAgree led led := fun _ => rfl

theorem creationAgree_putState {snap led : Ledger} {ctx : TxCtx} {k : Key} {v : JDoc} {c : String}
    (hag : CreationAgree snap led)
    (hs : (snap.getState k).map JDoc.creationTxId = some c)
    (hv : v.creationTxId = c) :
    CreationAgree snap (led.putState ctx k v) := by
  intro k'
  rw [getState_putState]
  by_cases hk : k' = k
  · subst hk
    simp [hs, hv]
  · simp only [if_neg hk]
    exact hag k'

/-! ### Lemmas about the `SealBox` strip loop -/

theorem sealBoxLoop_invs (ctx : TxCtx) (snap : Ledger) (boxID : String) (L : List String) :
    ∀ (led led' : Ledger),
      sealBoxLoop ctx snap boxID L led = .ok led' →
      NoDeletes led → CreationInv led → CreationAgree snap led →
      NoDeletes led' ∧ CreationInv led' ∧ CreationAgree snap led' := by
  induction L with
  | nil =>
    intro led led' h hnd hinv hag
    unfold sealBoxLoop at h
    cases h
    exact ⟨hnd, hinv, hag⟩
  | cons stripID rest ih =>
    intro led led' h hnd hinv hag
    unfold sealBoxLoop at h
    split at h
    · exact absurd h (by simp)
    next j hs =>
      split at h
      · exact absurd h (by simp)
      next hb =>
        have hsc : (snap.getState stripID).map JDoc.creationTxId = some j.creationTxId := by
          rw [hs]; rfl
        have hledState : ∃ j1, led.getState stripID = some j1 ∧
            j1.creationTxId = j.creationTxId := by
          have hag1 := hag stripID
          rw [hs] at hag1
          cases hls : led.getState stripID with
          | none => rw [hls] at hag1; simp at hag1
          | some j1 => rw [hls] at hag1; exact ⟨j1, rfl, by simpa using hag1⟩
        rcases hledState with ⟨j1, hj1, hj1c⟩
        exact ih _ led' h
          (noDeletes_putState ctx stripID _ hnd)
          (creationInv_putState_mut hinv hj1 hj1c.symm)
          (creationAgree_putState hag hsc rfl)

theorem sealedStrip_creationTxId (ctx : TxCtx) (boxID : String) (j : JDoc) :
    (sealedStrip ctx boxID j).creationTxId = j.creationTxId := rfl

theorem sealBoxLoop_ok_of (ctx : TxCtx) (snap : Ledger) (boxID : String) (L : List String) :
    ∀ (led : Ledger),
      (∀ k ∈ L, ∃ j, snap.getState k = some j ∧ j.toStrip.boxId = "") →
      ∃ led', sealBoxLoop ctx snap boxID L led = .ok led' := by
  induction L with
  | nil => intro led _; exact ⟨led, rfl⟩
  | cons stripID rest ih =>
    intro led hall
    rcases hall stripID (List.mem_cons_self stripID rest) with ⟨j, hs, hb⟩
    have hrest : ∀ k ∈ rest, ∃ j, snap.getState k = some j ∧ j.toStrip.boxId = "" :=
      fun k hk => hall k (List.mem_cons_of_mem _ hk)
    rcases ih (led.putState ctx stripID (sealedStrip ctx boxID j)) hrest with ⟨led', hled'⟩
    refine ⟨led', ?_⟩
    unfold sealBoxLoop
    rw [hs]
    simp only [hb, ne_eq, not_true_eq_false, if_false]
    exact hled'

theorem sealBoxLoop_getState (ctx : TxCtx) (snap : Ledger) (boxID : String) (L : List String) :
    ∀ (led led' : Ledger),
      sealBoxLoop ctx snap boxID L led = .ok led' →
      ∀ k, (k ∉ L → led'.getState k = led.getState k) ∧
        (k ∈ L → ∃ j, snap.getState k = some j ∧ j.toStrip.boxId = "" ∧
          led'.getState k = some (sealedStrip ctx boxID j)) := by
  induction L with
  | nil =>
    intro led led' h k
    unfold sealBoxLoop at h
    cases h
    exact ⟨fun _ => rfl, fun hk => absurd hk (List.not_mem_nil k)⟩
  | cons stripID rest ih =>
    intro led led' h k
    unfold sealBoxLoop at h
    split at h
    · exact absurd h (by simp)
    next j hs =>
      split at h
      · exact absurd h (by simp)
      next hb =>
        have hb' : j.toStrip.boxId = "" := by
          by_contra hc
          exact hb hc
        constructor
        · intro hk
          have hk1 : k ≠ stripID := fun he => hk (he ▸ List.mem_cons_self stripID rest)
          have hk2 : k ∉ rest := fun he => hk (List.mem_cons_of_mem _ he)
          have := (ih _ led' h k).1 hk2
          rw [this, getState_putState]
          simp [hk1]
        · intro hk
          rcases List.mem_cons.mp hk with he | hmem
          · by_cases hr : k ∈ rest
            · exact (ih _ led' h k).2 hr
            · subst he
              refine ⟨j, hs, hb', ?_⟩
              have := (ih _ led' h k).1 hr
              rw [this, getState_putState]
              simp
          · exact (ih _ led' h k).2 hmem

theorem sealBoxLoop_error_assigned (ctx : TxCtx) (snap : Ledger) (boxID : String)
    (L₁ : List String) :
    ∀ (c : String) (L₂ : List String) (led : Ledger) (j : JDoc),
      (∀ x ∈ L₁, ∃ jx, snap.getState x = some jx ∧ jx.toStrip.boxId = "") →
      snap.getState c = some j → j.toStrip.boxId ≠ "" →
      sealBoxLoop ctx snap boxID (L₁ ++ c :: L₂) led =
        .error (.alreadyAssigned DocTypeStrip c DocTypeBox j.toStrip.boxId) := by
  induction L₁ with
  | nil =>
    intro c L₂ led j _ hc hb
    unfold sealBoxLoop
    simp only [List.nil_append]
    rw [hc]
    simp [hb]
  | cons x rest ih =>
    intro c L₂ led j hall hc hb
    rcases hall x (List.mem_cons_self x rest) with ⟨jx, hx, hxb⟩
    unfold sealBoxLoop
    simp only [List.cons_append]
    rw [hx]
    simp only [hxb, ne_eq, not_true_eq_false, if_false]
    exact ih c L₂ _ j (fun y hy => hall y (List.mem_cons_of_mem _ hy)) hc hb

/-! ### Lemmas about the `SealCarton` box loop -/

theorem sealCartonLoop_invs (ctx : TxCtx) (snap : Ledger) (cartonID : String) (L : List String) :
    ∀ (led led' : Ledger),
      sealCartonLoop ctx snap cartonID L led = .ok led' →
      NoDeletes led → CreationInv led → CreationAgree snap led →
      NoDeletes led' ∧ CreationInv led' ∧ CreationAgree snap led' := by
  induction L with
  | nil =>
    intro led led' h hnd hinv hag
    unfold sealCartonLoop at h
    cases h
    exact ⟨hnd, hinv, hag⟩
  | cons boxID rest ih =>
    intro led led' h hnd hinv hag
    unfold sealCartonLoop at h
    split at h
    · exact absurd h (by simp)
    next j hs =>
      split at h
      · exact absurd h (by simp)
      next hb =>
        have hsc : (snap.getState boxID).map JDoc.creationTxId = some j.creationTxId := by
          rw [hs]; rfl
        have hledState : ∃ j1, led.getState boxID = some j1 ∧
            j1.creationTxId = j.creationTxId := by
          have hag1 := hag boxID
          rw [hs] at hag1
          cases hls : led.getState boxID with
          | none => rw [hls] at hag1; simp at hag1
          | some j1 => rw [hls] at hag1; exact ⟨j1, rfl, by simpa using hag1⟩
        rcases hledState with ⟨j1, hj1, hj1c⟩
        exact ih _ led' h
          (noDeletes_putState ctx boxID _ hnd)
          (creationInv_putState_mut hinv hj1 hj1c.symm)
          (creationAgree_putState hag hsc rfl)

theorem sealedBox_creationTxId (ctx : TxCtx) (cartonID : String) (j : JDoc) :
    (sealedBox ctx cartonID j).creationTxId = j.creationTxId := rfl

theorem sealCartonLoop_ok_of (ctx : TxCtx) (snap : Ledger) (cartonID : String) (L : List String) :
    ∀ (led : Ledger),
      (∀ k ∈ L, ∃ j, snap.getState k = some j ∧ j.toBox.cartonId = "") →
      ∃ led', sealCartonLoop ctx snap cartonID L led = .ok led' := by
  induction L with
  | nil => intro led _; exact ⟨led, rfl⟩
  | cons boxID rest ih =>
    intro led hall
    rcases hall boxID (List.mem_cons_self boxID rest) with ⟨j, hs, hb⟩
    have hrest : ∀ k ∈ rest, ∃ j, snap.getState k = some j ∧ j.toBox.cartonId = "" :=
      fun k hk => hall k (List.mem_cons_of_mem _ hk)
    rcases ih (led.putState ctx boxID (sealedBox ctx cartonID j)) hrest with ⟨led', hled'⟩
    refine ⟨led', ?_⟩
    unfold sealCartonLoop
    rw [hs]
    simp only [hb, ne_eq, not_true_eq_false, if_false]
    exact hled'

theorem sealCartonLoop_getState (ctx : TxCtx) (snap : Ledger) (cartonID : String) (L : List String) :
    ∀ (led led' : Ledger),
      sealCartonLoop ctx snap cartonID L led = .ok led' →
      ∀ k, (k ∉ L → led'.getState k = led.getState k) ∧
        (k ∈ L → ∃ j, snap.getState k = some j ∧ j.toBox.cartonId = "" ∧
          led'.getState k = some (sealedBox ctx cartonID j)) := by
  induction L with
  | nil =>
    intro led led' h k
    unfold sealCartonLoop at h
    cases h
    exact ⟨fun _ => rfl, fun hk => absurd hk (List.not_mem_nil k)⟩
  | cons boxID rest ih =>
    intro led led' h k
    unfold sealCartonLoop at h
    split at h
    · exact absurd h (by simp)
    next j hs =>
      split at h
      · exact absurd h (by simp)
      next hb =>
        have hb' : j.toBox.cartonId = "" := by
          by_contra hc
          exact hb hc
        constructor
        · intro hk
          have hk1 : k ≠ boxID := fun he => hk (he ▸ List.mem_cons_self boxID rest)
          have hk2 : k ∉ rest := fun he => hk (List.mem_cons_of_mem _ he)
          have := (ih _ led' h k).1 hk2
          rw [this, getState_putState]
          simp [hk1]
        · intro hk
          rcases List.mem_cons.mp hk with he | hmem
          · by_cases hr : k ∈ rest
            · exact (ih _ led' h k).2 hr
            · subst he
              refine ⟨j, hs, hb', ?_⟩
              have := (ih _ led' h k).1 hr
              rw [this, getState_putState]
              simp
          · exact (ih _ led' h k).2 hmem

theorem sealCartonLoop_error_assigned (ctx : TxCtx) (snap : Ledger) (cartonID : String)
    (L₁ : List String) :
    ∀ (c : String) (L₂ : List String) (led : Ledger) (j : JDoc),
      (∀ x ∈ L₁, ∃ jx, snap.getState x = some jx ∧ jx.toBox.cartonId = "") →
      snap.getState c = some j → j.toBox.cartonId ≠ "" →
      sealCartonLoop ctx snap cartonID (L₁ ++ c :: L₂) led =
        .error (.alreadyAssigned DocTypeBox c DocTypeCarton j.toBox.cartonId) := by
  induction L₁ with
  | nil =>
    intro c L₂ led j _ hc hb
    unfold sealCartonLoop
    simp only [List.nil_append]
    rw [hc]
    simp [hb]
  | cons x rest ih =>
    intro c L₂ led j hall hc hb
    rcases hall x (List.mem_cons_self x rest) with ⟨jx, hx, hxb⟩
    unfold sealCartonLoop
    simp only [List.cons_append]
    rw [hx]
    simp only [hxb, ne_eq, not_true_eq_false, if_false]
    exact ih c L₂ _ j (fun y hy => hall y (List.mem_cons_of_mem _ hy)) hc hb

/-! ### Lemmas about the `SealShipment` carton loop -/

theorem sealShipmentLoop_invs (ctx : TxCtx) (snap : Ledger) (shipmentID : String) (L : List String) :
    ∀ (led led' : Ledger),
      sealShipmentLoop ctx snap shipmentID L led = .ok led' →
      NoDeletes led → CreationInv led → CreationAgree snap led →
      NoDeletes led' ∧ CreationInv led' ∧ CreationAgree snap led' := by
  induction L with
  | nil =>
    intro led led' h hnd hinv hag
    unfold sealShipmentLoop at h
    cases h
    exact ⟨hnd, hinv, hag⟩
  | cons cartonID rest ih =>
    intro led led' h hnd hinv hag
    unfold sealShipmentLoop at h
    split at h
    · exact absurd h (by simp)
    next j hs =>
      split at h
      · exact absurd h (by simp)
      next hb =>
        have hsc : (snap.getState cartonID).map JDoc.creationTxId = some j.creationTxId := by
          rw [hs]; rfl
        have hledState : ∃ j1, led.getState cartonID = some j1 ∧
            j1.creationTxId = j.creationTxId := by
          have hag1 := hag cartonID
          rw [hs] at hag1
          cases hls : led.getState cartonID with
          | none => rw [hls] at hag1; simp at hag1
          | some j1 => rw [hls] at hag1; exact ⟨j1, rfl, by simpa using hag1⟩
        rcases hledState with ⟨j1, hj1, hj1c⟩
        exact ih _ led' h
          (noDeletes_putState ctx cartonID _ hnd)
          (creationInv_putState_mut hinv hj1 hj1c.symm)
          (creationAgree_putState hag hsc rfl)

theorem sealedCarton_creationTxId (ctx : TxCtx) (shipmentID : String) (j : JDoc) :
    (sealedCarton ctx shipmentID j).creationTxId = j.creationTxId := rfl

theorem sealShipmentLoop_ok_of (ctx : TxCtx) (snap : Ledger) (shipmentID : String) (L : List String) :
    ∀ (led : Ledger),
      (∀ k ∈ L, ∃ j, snap.getState k = some j ∧ j.toCarton.shipmentId = "") →
      ∃ led', sealShipmentLoop ctx snap shipmentID L led = .ok led' := by
  induction L with
  | nil => intro led _; exact ⟨led, rfl⟩
  | cons cartonID rest ih =>
    intro led hall
    rcases hall cartonID (List.mem_cons_self cartonID rest) with ⟨j, hs, hb⟩
    have hrest : ∀ k ∈ rest, ∃ j, snap.getState k = some j ∧ j.toCarton.shipmentId = "" :=
      fun k hk => hall k (List.mem_cons_of_mem _ hk)
    rcases ih (led.putState ctx cartonID (sealedCarton ctx shipmentID j)) hrest with ⟨led', hled'⟩
    refine ⟨led', ?_⟩
    unfold sealShipmentLoop
    rw [hs]
    simp only [hb, ne_eq, not_true_eq_false, if_false]
    exact hled'

theorem sealShipmentLoop_getState (ctx : TxCtx) (snap : Ledger) (shipmentID : String) (L : List String) :
    ∀ (led led' : Ledger),
      sealShipmentLoop ctx snap shipmentID L led = .ok led' →
      ∀ k, (k ∉ L → led'.getState k = led.getState k) ∧
        (k ∈ L → ∃ j, snap.getState k = some j ∧ j.toCarton.shipmentId = "" ∧
          led'.getState k = some (sealedCarton ctx shipmentID j)) := by
  induction L with
  | nil =>
    intro led led' h k
    unfold sealShipmentLoop at h
    cases h
    exact ⟨fun _ => rfl, fun hk => absurd hk (List.not_mem_nil k)⟩
  | cons cartonID rest ih =>
    intro led led' h k
    unfold sealShipmentLoop at h
    split at h
    · exact absurd h (by simp)
    next j hs =>
      split at h
      · exact absurd h (by simp)
      next hb =>
        have hb' : j.toCarton.shipmentId = "" := by
          by_contra hc
          exact hb hc
        constructor
        · intro hk
          have hk1 : k ≠ cartonID := fun he => hk (he ▸ List.mem_cons_self cartonID rest)
          have hk2 : k ∉ rest := fun he => hk (List.mem_cons_of_mem _ he)
          have := (ih _ led' h k).1 hk2
          rw [this, getState_putState]
          simp [hk1]
        · intro hk
          rcases List.mem_cons.mp hk with he | hmem
          · by_cases hr : k ∈ rest
            · exact (ih _ led' h k).2 hr
            · subst he
              refine ⟨j, hs, hb', ?_⟩
              have := (ih _ led' h k).1 hr
              rw [this, getState_putState]
              simp
          · exact (ih _ led' h k).2 hmem

theorem sealShipmentLoop_error_assigned (ctx : TxCtx) (snap : Ledger) (shipmentID : String)
    (L₁ : List String) :
    ∀ (c : String) (L₂ : List String) (led : Ledger) (j : JDoc),
      (∀ x ∈ L₁, ∃ jx, snap.getState x = some jx ∧ jx.toCarton.shipmentId = "") →
      snap.getState c = some j → j.toCarton.shipmentId ≠ "" →
      sealShipmentLoop ctx snap shipmentID (L₁ ++ c :: L₂) led =
        .error (.alreadyAssigned DocTypeCarton c DocTypeShipment j.toCarton.shipmentId) := by
  induction L₁ with
  | nil =>
    intro c L₂ led j _ hc hb
    unfold sealShipmentLoop
    simp only [List.nil_append]
    rw [hc]
    simp [hb]
  | cons x rest ih =>
    intro c L₂ led j hall hc hb
    rcases hall x (List.mem_cons_self x rest) with ⟨jx, hx, hxb⟩
    unfold sealShipmentLoop
    simp only [List.cons_append]
    rw [hx]
    simp only [hxb, ne_eq, not_true_eq_false, if_false]
    exact ih c L₂ _ j (fun y hy => hall y (List.mem_cons_of_mem _ hy)) hc hb


/-! ### Lemmas about the `CreateOrder` shipment loop -/

theorem createOrderLoop_invs (ctx : TxCtx) (snap : Ledger) (orderID : String) (L : List String) :
    ∀ (led led' : Ledger),
      createOrderLoop ctx snap orderID L led = .ok led' →
      NoDeletes led → CreationInv led → CreationAgree snap led →
      NoDeletes led' ∧ CreationInv led' ∧ CreationAgree snap led' := by
  induction L with
  | nil =>
    intro led led' h hnd hinv hag
    unfold createOrderLoop at h
    cases h
    exact ⟨hnd, hinv, hag⟩
  | cons itemID rest ih =>
    intro led led' h hnd hinv hag
    unfold createOrderLoop at h
    split at h
    · exact absurd h (by simp)
    next j hs =>
      split at h
      · exact absurd h (by simp)
      next hb =>
        have hsc : (snap.getState itemID).map JDoc.creationTxId = some j.creationTxId := by
          rw [hs]; rfl
        have hledState : ∃ j1, led.getState itemID = some j1 ∧
            j1.creationTxId = j.creationTxId := by
          have hag1 := hag itemID
          rw [hs] at hag1
          cases hls : led.getState itemID with
          | none => rw [hls] at hag1; simp at hag1
          | some j1 => rw [hls] at hag1; exact ⟨j1, rfl, by simpa using hag1⟩
        rcases hledState with ⟨j1, hj1, hj1c⟩
        exact ih _ led' h
          (noDeletes_putState ctx itemID _ hnd)
          (creationInv_putState_mut hinv hj1 hj1c.symm)
          (creationAgree_putState hag hsc rfl)

theorem inOrderShipment_creationTxId (ctx : TxCtx) (orderID : String) (j : JDoc) :
    (inOrderShipment ctx orderID j).creationTxId = j.creationTxId := rfl

theorem createOrderLoop_ok_of (ctx : TxCtx) (snap : Ledger) (orderID : String) (L : List String) :
    ∀ (led : Ledger),
      (∀ k ∈ L, ∃ j, snap.getState k = some j ∧ j.toShipment.docType = DocTypeShipment) →
      ∃ led', createOrderLoop ctx snap orderID L led = .ok led' := by
  induction L with
  | nil => intro led _; exact ⟨led, rfl⟩
  | cons itemID rest ih =>
    intro led hall
    rcases hall itemID (List.mem_cons_self itemID rest) with ⟨j, hs, hb⟩
    have hrest : ∀ k ∈ rest, ∃ j, snap.getState k = some j ∧ j.toShipment.docType = DocTypeShipment :=
      fun k hk => hall k (List.mem_cons_of_mem _ hk)
    rcases ih (led.putState ctx itemID (inOrderShipment ctx orderID j)) hrest with ⟨led', hled'⟩
    refine ⟨led', ?_⟩
    unfold createOrderLoop
    rw [hs]
    simp only [hb, ne_eq, not_true_eq_false, if_false]
    exact hled'

theorem createOrderLoop_getState (ctx : TxCtx) (snap : Ledger) (orderID : String) (L : List String) :
    ∀ (led led' : Ledger),
      createOrderLoop ctx snap orderID L led = .ok led' →
      ∀ k, (k ∉ L → led'.getState k = led.getState k) ∧
        (k ∈ L → ∃ j, snap.getState k = some j ∧ j.toShipment.docType = DocTypeShipment ∧
          led'.getState k = some (inOrderShipment ctx orderID j)) := by
  induction L with
  | nil =>
    intro led led' h k
    unfold createOrderLoop at h
    cases h
    exact ⟨fun _ => rfl, fun hk => absurd hk (List.not_mem_nil k)⟩
  | cons itemID rest ih =>
    intro led led' h k
    unfold createOrderLoop at h
    split at h
    · exact absurd h (by simp)
    next j hs =>
      split at h
      · exact absurd h (by simp)
      next hb =>
        have hb' : j.toShipment.docType = DocTypeShipment := by
          by_contra hc
          exact hb hc
        constructor
        · intro hk
          have hk1 : k ≠ itemID := fun he => hk (he ▸ List.mem_cons_self itemID rest)
          have hk2 : k ∉ rest := fun he => hk (List.mem_cons_of_mem _ he)
          have := (ih _ led' h k).1 hk2
          rw [this, getState_putState]
          simp [hk1]
        · intro hk
          rcases List.mem_cons.mp hk with he | hmem
          · by_cases hr : k ∈ rest
            · exact (ih _ led' h k).2 hr
            · subst he
              refine ⟨j, hs, hb', ?_⟩
              have := (ih _ led' h k).1 hr
              rw [this, getState_putState]
              simp
          · exact (ih _ led' h k).2 hmem


/-! ### Per-operation preservation of the creation invariants -/

theorem invs_CreateStrip {ctx : TxCtx} {led led' : Ledger} {id b m mf ex : String} {s : Strip}
    (h : CreateStrip ctx led id b m mf ex = .ok (s, led'))
    (hnd : NoDeletes led) (hinv : CreationInv led) :
    NoDeletes led' ∧ CreationInv led' := by
  unfold CreateStrip at h
  split at h
  · exact absurd h (by simp)
  next hex =>
    have h0 : led.getState id = none := Option.not_isSome_iff_eq_none.mp hex
    cases h
    exact ⟨noDeletes_putState ctx id _ hnd, creationInv_putState_new hnd hinv h0 rfl⟩

theorem invs_SealBox {ctx : TxCtx} {led led' : Ledger} {boxID : String}
    {ids : Option (List String)} {b : Box}
    (h : SealBox ctx led boxID ids = .ok (b, led'))
    (hnd : NoDeletes led) (hinv : CreationInv led) :
    NoDeletes led' ∧ CreationInv led' := by
  unfold SealBox at h
  split at h
  · exact absurd h (by simp)
  next hex =>
    have h0 : led.getState boxID = none := Option.not_isSome_iff_eq_none.mp hex
    cases ids with
    | none => exact absurd h (by simp)
    | some L =>
      simp only at h
      cases hloop : sealBoxLoop ctx led boxID L led with
      | error e => rw [hloop] at h; exact absurd h (by simp)
      | ok led1 =>
        rw [hloop] at h
        cases h
        rcases sealBoxLoop_invs ctx led boxID L led led1 hloop hnd hinv
          (creationAgree_refl led) with ⟨hnd1, hinv1, hag1⟩
        have h1 : led1.getState boxID = none := by
          have hmm := hag1 boxID
          rw [h0] at hmm
          cases hx : led1.getState boxID with
          | none => rfl
          | some j1 => rw [hx] at hmm; simp at hmm
        exact ⟨noDeletes_putState ctx boxID _ hnd1,
               creationInv_putState_new hnd1 hinv1 h1 rfl⟩

theorem invs_SealCarton {ctx : TxCtx} {led led' : Ledger} {cartonID : String}
    {ids : Option (List String)} {c : Carton}
    (h : SealCarton ctx led cartonID ids = .ok (c, led'))
    (hnd : NoDeletes led) (hinv : CreationInv led) :
    NoDeletes led' ∧ CreationInv led' := by
  unfold SealCarton at h
  split at h
  · exact absurd h (by simp)
  next hex =>
    have h0 : led.getState cartonID = none := Option.not_isSome_iff_eq_none.mp hex
    cases ids with
    | none => exact absurd h (by simp)
    | some L =>
      simp only at h
      cases hloop : sealCartonLoop ctx led cartonID L led with
      | error e => rw [hloop] at h; exact absurd h (by simp)
      | ok led1 =>
        rw [hloop] at h
        cases h
        rcases sealCartonLoop_invs ctx led cartonID L led led1 hloop hnd hinv
          (creationAgree_refl led) with ⟨hnd1, hinv1, hag1⟩
        have h1 : led1.getState cartonID = none := by
          have hmm := hag1 cartonID
          rw [h0] at hmm
          cases hx : led1.getState cartonID with
          | none => rfl
          | some j1 => rw [hx] at hmm; simp at hmm
        exact ⟨noDeletes_putState ctx cartonID _ hnd1,
               creationInv_putState_new hnd1 hinv1 h1 rfl⟩

theorem invs_SealShipment {ctx : TxCtx} {led led' : Ledger} {shipmentID : String}
    {ids : Option (List String)} {s : Shipment}
    (h : SealShipment ctx led shipmentID ids = .ok (s, led'))
    (hnd : NoDeletes led) (hinv : CreationInv led) :
    NoDeletes led' ∧ CreationInv led' := by
  unfold SealShipment at h
  split at h
  · exact absurd h (by simp)
  next hex =>
    have h0 : led.getState shipmentID = none := Option.not_isSome_iff_eq_none.mp hex
    cases ids with
    | none => exact absurd h (by simp)
    | some L =>
      simp only at h
      cases hloop : sealShipmentLoop ctx led shipmentID L led with
      | error e => rw [hloop] at h; exact absurd h (by simp)
      | ok led1 =>
        rw [hloop] at h
        cases h
        rcases sealShipmentLoop_invs ctx led shipmentID L led led1 hloop hnd hinv
          (creationAgree_refl led) with ⟨hnd1, hinv1, hag1⟩
        have h1 : led1.getState shipmentID = none := by
          have hmm := hag1 shipmentID
          rw [h0] at hmm
          cases hx : led1.getState shipmentID with
          | none => rfl
          | some j1 => rw [hx] at hmm; simp at hmm
        exact ⟨noDeletes_putState ctx shipmentID _ hnd1,
               creationInv_putState_new hnd1 hinv1 h1 rfl⟩

theorem invs_DistributeShipment {ctx : TxCtx} {led led' : Ledger} {shipmentID dist : String}
    {s : Shipment}
    (h : DistributeShipment ctx led shipmentID dist = .ok (s, led'))
    (hnd : NoDeletes led) (hinv : CreationInv led) :
    NoDeletes led' ∧ CreationInv led' := by
  unfold DistributeShipment at h
  split at h
  · exact absurd h (by simp)
  next j hj =>
    cases h
    exact ⟨noDeletes_putState ctx shipmentID _ hnd,
           creationInv_putState_mut hinv hj rfl⟩

theorem invs_CreateOrder {ctx : TxCtx} {led led' : Ledger} {orderID : String}
    {ids : Option (List String)} {sid sorg rid rorg : String} {o : Order}
    (h : CreateOrder ctx led orderID ids sid sorg rid rorg = .ok (o, led'))
    (hnd : NoDeletes led) (hinv : CreationInv led) :
    NoDeletes led' ∧ CreationInv led' := by
  unfold CreateOrder at h
  split at h
  · exact absurd h (by simp)
  next hex =>
    have h0 : led.getState orderID = none := Option.not_isSome_iff_eq_none.mp hex
    cases ids with
    | none => exact absurd h (by simp)
    | some L =>
      simp only at h
      split at h
      · exact absurd h (by simp)
      next hlen =>
        cases hloop : createOrderLoop ctx led orderID L led with
        | error e => rw [hloop] at h; exact absurd h (by simp)
        | ok led1 =>
          rw [hloop] at h
          cases h
          rcases createOrderLoop_invs ctx led orderID L led led1 hloop hnd hinv
            (creationAgree_refl led) with ⟨hnd1, hinv1, hag1⟩
          have h1 : led1.getState orderID = none := by
            have hmm := hag1 orderID
            rw [h0] at hmm
            cases hx : led1.getState orderID with
            | none => rfl
            | some j1 => rw [hx] at hmm; simp at hmm
          exact ⟨noDeletes_putState ctx orderID _ hnd1,
                 creationInv_putState_new hnd1 hinv1 h1 rfl⟩

theorem invs_DispatchOrder {ctx : TxCtx} {led led' : Ledger} {orderID : String} {o : Order}
    (h : DispatchOrder ctx led orderID = .ok (o, led'))
    (hnd : NoDeletes led) (hinv : CreationInv led) :
    NoDeletes led' ∧ CreationInv led' := by
  unfold DispatchOrder at h
  split at h
  · exact absurd h (by simp)
  next j hj =>
    cases h
    exact ⟨noDeletes_putState ctx orderID _ hnd,
           creationInv_putState_mut hinv hj rfl⟩

theorem invs_DeliverOrder {ctx : TxCtx} {led led' : Ledger} {orderID : String} {o : Order}
    (h : DeliverOrder ctx led orderID = .ok (o, led'))
    (hnd : NoDeletes led) (hinv : CreationInv led) :
    NoDeletes led' ∧ CreationInv led' := by
  unfold DeliverOrder at h
  split at h
  · exact absurd h (by simp)
  next j hj =>
    cases h
    exact ⟨noDeletes_putState ctx orderID _ hnd,
           creationInv_putState_mut hinv hj rfl⟩

theorem invs_Step {ctx : TxCtx} {led led' : Ledger} (h : Step ctx led led')
    (hnd : NoDeletes led) (hinv : CreationInv led) :
    NoDeletes led' ∧ CreationInv led' := by
  cases h with
  | createStrip id b m mf ex s hop => exact invs_CreateStrip hop hnd hinv
  | sealBox boxID ids b hop => exact invs_SealBox hop hnd hinv
  | sealCarton cartonID ids c hop => exact invs_SealCarton hop hnd hinv
  | sealShipment shipmentID ids s hop => exact invs_SealShipment hop hnd hinv
  | distributeShipment shipmentID dist s hop => exact invs_DistributeShipment hop hnd hinv
  | createOrder orderID ids sid sorg rid rorg o hop => exact invs_CreateOrder hop hnd hinv
  | dispatchOrder orderID o hop => exact invs_DispatchOrder hop hnd hinv
  | deliverOrder orderID o hop => exact invs_DeliverOrder hop hnd hinv

theorem invs_Reachable {led : Ledger} (h : Reachable led) :
    NoDeletes led ∧ CreationInv led := by
  induction h with
  | empty =>
    constructor
    · intro p hp
      exact absurd hp (List.not_mem_nil p)
    · intro k j hj
      unfold Ledger.getState Ledger.getHistory Ledger.empty at hj
      simp at hj
  | step hr hs ih => exact invs_Step hs ih.1 ih.2


/-- Any successful operation leaves the `creationTxId` of every surviving
document unchanged (document kinds all share this JSON key, so this holds
with no assumption on how the operation's arguments were typed). -/
theorem step_preserves_creationTxId {ctx : TxCtx} {led led' : Ledger} (h : Step ctx led led') :
    ∀ k j j', led.getState k = some j → led'.getState k = some j' →
      j'.creationTxId = j.creationTxId := by
  cases h with
  | createStrip id b m mf ex s hop =>
    intro k j j' hj hj'
    unfold CreateStrip at hop
    split at hop
    · exact absurd hop (by simp)
    next hex =>
      have h0 : led.getState id = none := Option.not_isSome_iff_eq_none.mp hex
      cases hop
      rw [getState_putState] at hj'
      by_cases hk : k = id
      · subst hk; rw [h0] at hj; exact absurd hj (by simp)
      · rw [if_neg hk] at hj'
        rw [hj] at hj'
        cases Option.some.inj hj'
        rfl
  | sealBox boxID ids b hop =>
    intro k j j' hj hj'
    unfold SealBox at hop
    split at hop
    · exact absurd hop (by simp)
    next hex =>
      have h0 : led.getState boxID = none := Option.not_isSome_iff_eq_none.mp hex
      cases ids with
      | none => exact absurd hop (by simp)
      | some L =>
        simp only at hop
        cases hloop : sealBoxLoop ctx led boxID L led with
        | error e => rw [hloop] at hop; exact absurd hop (by simp)
        | ok led1 =>
          rw [hloop] at hop
          cases hop
          rw [getState_putState] at hj'
          by_cases hk : k = boxID
          · subst hk; rw [h0] at hj; exact absurd hj (by simp)
          · rw [if_neg hk] at hj'
            by_cases hmem : k ∈ L
            · rcases (sealBoxLoop_getState ctx led boxID L led led1 hloop k).2 hmem with
                ⟨j0, hj0, hb0, hpost⟩
              rw [hj0] at hj
              cases Option.some.inj hj
              rw [hpost] at hj'
              cases Option.some.inj hj'
              rfl
            · have hun := (sealBoxLoop_getState ctx led boxID L led led1 hloop k).1 hmem
              rw [hun, hj] at hj'
              cases Option.some.inj hj'
              rfl
  | sealCarton cartonID ids c hop =>
    intro k j j' hj hj'
    unfold SealCarton at hop
    split at hop
    · exact absurd hop (by simp)
    next hex =>
      have h0 : led.getState cartonID = none := Option.not_isSome_iff_eq_none.mp hex
      cases ids with
      | none => exact absurd hop (by simp)
      | some L =>
        simp only at hop
        cases hloop : sealCartonLoop ctx led cartonID L led with
        | error e => rw [hloop] at hop; exact absurd hop (by simp)
        | ok led1 =>
          rw [hloop] at hop
          cases hop
          rw [getState_putState] at hj'
          by_cases hk : k = cartonID
          · subst hk; rw [h0] at hj; exact absurd hj (by simp)
          · rw [if_neg hk] at hj'
            by_cases hmem : k ∈ L
            · rcases (sealCartonLoop_getState ctx led cartonID L led led1 hloop k).2 hmem with
                ⟨j0, hj0, hb0, hpost⟩
              rw [hj0] at hj
              cases Option.some.inj hj
              rw [hpost] at hj'
              cases Option.some.inj hj'
              rfl
            · have hun := (sealCartonLoop_getState ctx led cartonID L led led1 hloop k).1 hmem
              rw [hun, hj] at hj'
              cases Option.some.inj hj'
              rfl
  | sealShipment shipmentID ids s hop =>
    intro k j j' hj hj'
    unfold SealShipment at hop
    split at hop
    · exact absurd hop (by simp)
    next hex =>
      have h0 : led.getState shipmentID = none := Option.not_isSome_iff_eq_none.mp hex
      cases ids with
      | none => exact absurd hop (by simp)
      | some L =>
        simp only at hop
        cases hloop : sealShipmentLoop ctx led shipmentID L led with
        | error e => rw [hloop] at hop; exact absurd hop (by simp)
        | ok led1 =>
          rw [hloop] at hop
          cases hop
          rw [getState_putState] at hj'
          by_cases hk : k = shipmentID
          · subst hk; rw [h0] at hj; exact absurd hj (by simp)
          · rw [if_neg hk] at hj'
            by_cases hmem : k ∈ L
            · rcases (sealShipmentLoop_getState ctx led shipmentID L led led1 hloop k).2 hmem with
                ⟨j0, hj0, hb0, hpost⟩
              rw [hj0] at hj
              cases Option.some.inj hj
              rw [hpost] at hj'
              cases Option.some.inj hj'
              rfl
            · have hun := (sealShipmentLoop_getState ctx led shipmentID L led led1 hloop k).1 hmem
              rw [hun, hj] at hj'
              cases Option.some.inj hj'
              rfl
  | distributeShipment shipmentID dist s hop =>
    intro k j j' hj hj'
    unfold DistributeShipment at hop
    split at hop
    · exact absurd hop (by simp)
    next j0 hj0 =>
      cases hop
      rw [getState_putState] at hj'
      by_cases hk : k = shipmentID
      · subst hk
        rw [if_pos rfl] at hj'
        cases Option.some.inj hj'
        rw [hj0] at hj
        cases Option.some.inj hj
        rfl
      · rw [if_neg hk] at hj'
        rw [hj] at hj'
        cases Option.some.inj hj'
        rfl
  | createOrder orderID ids sid sorg rid rorg o hop =>
    intro k j j' hj hj'
    unfold CreateOrder at hop
    split at hop
    · exact absurd hop (by simp)
    next hex =>
      have h0 : led.getState orderID = none := Option.not_isSome_iff_eq_none.mp hex
      cases ids with
      | none => exact absurd hop (by simp)
      | some L =>
        simp only at hop
        split at hop
        · exact absurd hop (by simp)
        next hlen =>
          cases hloop : createOrderLoop ctx led orderID L led with
          | error e => rw [hloop] at hop; exact absurd hop (by simp)
          | ok led1 =>
            rw [hloop] at hop
            cases hop
            rw [getState_putState] at hj'
            by_cases hk : k = orderID
            · subst hk; rw [h0] at hj; exact absurd hj (by simp)
            · rw [if_neg hk] at hj'
              by_cases hmem : k ∈ L
              · rcases (createOrderLoop_getState ctx led orderID L led led1 hloop k).2 hmem with
                  ⟨j0, hj0, hb0, hpost⟩
                rw [hj0] at hj
                cases Option.some.inj hj
                rw [hpost] at hj'
                cases Option.some.inj hj'
                rfl
              · have hun := (createOrderLoop_getState ctx led orderID L led led1 hloop k).1 hmem
                rw [hun, hj] at hj'
                cases Option.some.inj hj'
                rfl
  | dispatchOrder orderID o hop =>
    intro k j j' hj hj'
    unfold DispatchOrder at hop
    split at hop
    · exact absurd hop (by simp)
    next j0 hj0 =>
      cases hop
      rw [getState_putState] at hj'
      by_cases hk : k = orderID
      · subst hk
        rw [if_pos rfl] at hj'
        cases Option.some.inj hj'
        rw [hj0] at hj
        cases Option.some.inj hj
        rfl
      · rw [if_neg hk] at hj'
        rw [hj] at hj'
        cases Option.some.inj hj'
        rfl
  | deliverOrder orderID o hop =>
    intro k j j' hj hj'
    unfold DeliverOrder at hop
    split at hop
    · exact absurd hop (by simp)
    next j0 hj0 =>
      cases hop
      rw [getState_putState] at hj'
      by_cases hk : k = orderID
      · subst hk
        rw [if_pos rfl] at hj'
        cases Option.some.inj hj'
        rw [hj0] at hj
        cases Option.some.inj hj
        rfl
      · rw [if_neg hk] at hj'
        rw [hj] at hj'
        cases Option.some.inj hj'
        rfl


/-! ### Claim C8 -/

/-- Claim C8: for every entity of every kind, `creationTxId` is set exactly
once, at the entity's first write, to the id of the creating transaction, and
no later operation alters it.  Part one: on any ledger reachable from the
empty ledger by the exposed operations, the `creationTxId` observed via
`GetState` equals the transaction id of the key's first (oldest) history
entry.  Part two: any further successful operation leaves every surviving
document's `creationTxId` unchanged. -/
theorem c8_creationTxId_set_once {led : Ledger} (hreach : Reachable led) :
    (∀ k j, led.getState k = some j →
      ((led.getHistory k).getLast?).map HistEntry.txId = some j.creationTxId) ∧
    (∀ ctx led2, Step ctx led led2 → ∀ k j j', led.getState k = some j →
      led2.getState k = some j' → j'.creationTxId = j.creationTxId) := by
  refine ⟨(invs_Reachable hreach).2, ?_⟩
  intro ctx led2 hstep k j j' hj hj'
  exact step_preserves_creationTxId hstep k j j' hj hj'

/-- Witness for C8: a concrete reachable ledger (one `CreateStrip` on the
empty ledger) on which the theorem's conclusion evaluates. -/
theorem c8_witness :
    ((led8.getHistory "A1").getLast?).map HistEntry.txId =
      some (Strip.toJDoc strip8).creationTxId := by
  have hstep : Step ctx8 Ledger.empty led8 :=
    @Step.createStrip ctx8 Ledger.empty led8 "A1" "B01" "Med" "d1" "d2" strip8 rfl
  have hreach : Reachable led8 := Reachable.step Reachable.empty hstep
  exact (c8_creationTxId_set_once hreach).1 "A1" strip8.toJDoc (by decide)


/-! ### Claim C10 -/

/-- Claim C10: `DispatchOrder` modifies only the order's `status`,
`dispatchedAt` and `updatedAt`, and `DeliverOrder` only `status`,
`deliveredAt` and `updatedAt`; every other field of an existing order is
written back unchanged, and no other ledger key is touched. -/
theorem c10_dispatch_deliver_frame (ctx : TxCtx) (led : Ledger) (oid : Key) (j : JDoc)
    (hj : led.getState oid = some j) :
    (DispatchOrder ctx led oid =
        .ok (dispatchedOrder ctx j, led.putState ctx oid (dispatchedOrder ctx j).toJDoc) ∧
      (led.putState ctx oid (dispatchedOrder ctx j).toJDoc).getState oid =
        some (dispatchedOrder ctx j).toJDoc ∧
      (∀ k, k ≠ oid →
        (led.putState ctx oid (dispatchedOrder ctx j).toJDoc).getState k = led.getState k) ∧
      (dispatchedOrder ctx j).status = StatusDispatched ∧
      (dispatchedOrder ctx j).dispatchedAt = ctx.ts ∧
      (dispatchedOrder ctx j).updatedAt = ctx.ts ∧
      (dispatchedOrder ctx j).id = j.toOrder.id ∧
      (dispatchedOrder ctx j).docType = j.toOrder.docType ∧
      (dispatchedOrder ctx j).itemType = j.toOrder.itemType ∧
      (dispatchedOrder ctx j).itemIds = j.toOrder.itemIds ∧
      (dispatchedOrder ctx j).senderId = j.toOrder.senderId ∧
      (dispatchedOrder ctx j).senderOrg = j.toOrder.senderOrg ∧
      (dispatchedOrder ctx j).receiverId = j.toOrder.receiverId ∧
      (dispatchedOrder ctx j).receiverOrg = j.toOrder.receiverOrg ∧
      (dispatchedOrder ctx j).recipient = j.toOrder.recipient ∧
      (dispatchedOrder ctx j).creationTxId = j.toOrder.creationTxId ∧
      (dispatchedOrder ctx j).createdAt = j.toOrder.createdAt ∧
      (dispatchedOrder ctx j).deliveredAt = j.toOrder.deliveredAt) ∧
    (DeliverOrder ctx led oid =
        .ok (deliveredOrder ctx j, led.putState ctx oid (deliveredOrder ctx j).toJDoc) ∧
      (led.putState ctx oid (deliveredOrder ctx j).toJDoc).getState oid =
        some (deliveredOrder ctx j).toJDoc ∧
      (∀ k, k ≠ oid →
        (led.putState ctx oid (deliveredOrder ctx j).toJDoc).getState k = led.getState k) ∧
      (deliveredOrder ctx j).status = StatusDelivered ∧
      (deliveredOrder ctx j).deliveredAt = ctx.ts ∧
      (deliveredOrder ctx j).updatedAt = ctx.ts ∧
      (deliveredOrder ctx j).id = j.toOrder.id ∧
      (deliveredOrder ctx j).docType = j.toOrder.docType ∧
      (deliveredOrder ctx j).itemType = j.toOrder.itemType ∧
      (deliveredOrder ctx j).itemIds = j.toOrder.itemIds ∧
      (deliveredOrder ctx j).senderId = j.toOrder.senderId ∧
      (deliveredOrder ctx j).senderOrg = j.toOrder.senderOrg ∧
      (deliveredOrder ctx j).receiverId = j.toOrder.receiverId ∧
      (deliveredOrder ctx j).receiverOrg = j.toOrder.receiverOrg ∧
      (deliveredOrder ctx j).recipient = j.toOrder.recipient ∧
      (deliveredOrder ctx j).creationTxId = j.toOrder.creationTxId ∧
      (deliveredOrder ctx j).createdAt = j.toOrder.createdAt ∧
      (deliveredOrder ctx j).dispatchedAt = j.toOrder.dispatchedAt) := by
  constructor
  · refine ⟨?_, ?_, ?_, rfl, rfl, rfl, rfl, rfl, rfl, rfl, rfl, rfl, rfl, rfl, rfl, rfl, rfl, rfl⟩
    · unfold DispatchOrder
      rw [hj]
    · rw [getState_putState]
      simp
    · intro k hk
      rw [getState_putState, if_neg hk]
  · refine ⟨?_, ?_, ?_, rfl, rfl, rfl, rfl, rfl, rfl, rfl, rfl, rfl, rfl, rfl, rfl, rfl, rfl, rfl⟩
    · unfold DeliverOrder
      rw [hj]
    · rw [getState_putState]
      simp
    · intro k hk
      rw [getState_putState, if_neg hk]

/-- Witness for C10 at a concrete existing order. -/
theorem c10_witness :
    DispatchOrder ctx10 led10 "O7" =
      .ok (dispatchedOrder ctx10 ord10.toJDoc,
           led10.putState ctx10 "O7" (dispatchedOrder ctx10 ord10.toJDoc).toJDoc) ∧
    (dispatchedOrder ctx10 ord10.toJDoc).deliveredAt = ord10.toJDoc.toOrder.deliveredAt ∧
    DeliverOrder ctx10 led10 "O7" =
      .ok (deliveredOrder ctx10 ord10.toJDoc,
           led10.putState ctx10 "O7" (deliveredOrder ctx10 ord10.toJDoc).toJDoc) := by
  have h := c10_dispatch_deliver_frame ctx10 led10 "O7" ord10.toJDoc (by decide)
  exact ⟨h.1.1, h.1.2.2.2.2.2.2.2.2.2.2.2.2.2.2.2.2.2, h.2.1⟩


/-! ### Claim C4 -/

/-- Claim C4: for a fresh box id and a non-empty list of existing unassigned
strips, `SealBox` succeeds; the new box carries exactly the given strip list
in order, an empty `cartonId`, status `CREATED` and the transaction context's
id and timestamps; every listed strip is written back with `boxId` set to the
new box and status `SEALED`. -/
theorem c4_sealBox_success (ctx : TxCtx) (led : Ledger) (boxID : String) (L : List String)
    (hfresh : led.getState boxID = none) (hne : L ≠ [])
    (hall : ∀ sid ∈ L, ∃ j, led.getState sid = some j ∧ j.docType = DocTypeStrip ∧
      j.toStrip.boxId = "") :
    ∃ led', SealBox ctx led boxID (some L) =
        .ok (⟨DocTypeBox, boxID, L, "", StatusCreated, ctx.txId, ctx.ts, ctx.ts⟩, led') ∧
      led'.getState boxID =
        some (Box.toJDoc ⟨DocTypeBox, boxID, L, "", StatusCreated, ctx.txId, ctx.ts, ctx.ts⟩) ∧
      ∀ sid ∈ L, ∃ j, led.getState sid = some j ∧
        led'.getState sid = some (sealedStrip ctx boxID j) ∧
        (sealedStrip ctx boxID j).boxId = boxID ∧
        (sealedStrip ctx boxID j).status = StatusSealed := by
  have hall' : ∀ k ∈ L, ∃ j, led.getState k = some j ∧ j.toStrip.boxId = "" :=
    fun k hk => (hall k hk).elim (fun j hj => ⟨j, hj.1, hj.2.2⟩)
  rcases sealBoxLoop_ok_of ctx led boxID L led hall' with ⟨led1, hloop⟩
  refine ⟨led1.putState ctx boxID
    (Box.toJDoc ⟨DocTypeBox, boxID, L, "", StatusCreated, ctx.txId, ctx.ts, ctx.ts⟩),
    ?_, ?_, ?_⟩
  · simp [SealBox, hfresh, hloop]
  · rw [getState_putState]
    simp
  · intro sid hsid
    rcases (sealBoxLoop_getState ctx led boxID L led led1 hloop sid).2 hsid with
      ⟨j, hj, hb, hpost⟩
    have hne2 : sid ≠ boxID := by
      intro he
      rw [he, hfresh] at hj
      exact absurd hj (by simp)
    refine ⟨j, hj, ?_, rfl, rfl⟩
    rw [getState_putState, if_neg hne2]
    exact hpost

/-- Witness for C4: seal two concrete strips into a fresh box. -/
theorem c4_witness :
    ∃ led', SealBox ctx4 led4 "B1" (some ["A1", "A2"]) =
        .ok (⟨DocTypeBox, "B1", ["A1", "A2"], "", StatusCreated, "txB1", 5, 5⟩, led') ∧
      led'.getState "B1" =
        some (Box.toJDoc ⟨DocTypeBox, "B1", ["A1", "A2"], "", StatusCreated, "txB1", 5, 5⟩) ∧
      ∀ sid ∈ ["A1", "A2"], ∃ j, led4.getState sid = some j ∧
        led'.getState sid = some (sealedStrip ctx4 "B1" j) ∧
        (sealedStrip ctx4 "B1" j).boxId = "B1" ∧
        (sealedStrip ctx4 "B1" j).status = StatusSealed := by
  have h := c4_sealBox_success ctx4 led4 "B1" ["A1", "A2"] (by decide) (by decide) (by decide)
  exact h

/-! ### Claim C9 -/

/-- Claim C9 (implicit): `CreateOrder` never checks a referenced shipment's
`orderId`; a second order naming a shipment already claimed by another order
succeeds (its other preconditions holding) and silently overwrites the
shipment's `orderId` with the new order's id. -/
theorem c9_createOrder_overwrites_orderId (ctx : TxCtx) (led : Ledger)
    (orderID oldOrder : String) (L : List String) (S : String)
    (sid sorg rid rorg : String) (jS : JDoc)
    (hfresh : led.getState orderID = none)
    (hne : L ≠ [])
    (hS : S ∈ L)
    (hjS : led.getState S = some jS)
    (hclaimed : jS.orderId = oldOrder) (hold : oldOrder ≠ "")
    (hall : ∀ x ∈ L, ∃ jx, led.getState x = some jx ∧
      jx.toShipment.docType = DocTypeShipment) :
    ∃ o led', CreateOrder ctx led orderID (some L) sid sorg rid rorg = .ok (o, led') ∧
      led'.getState S = some (inOrderShipment ctx orderID jS) ∧
      (inOrderShipment ctx orderID jS).orderId = orderID ∧
      (inOrderShipment ctx orderID jS).status = StatusInOrder := by
  rcases createOrderLoop_ok_of ctx led orderID L led hall with ⟨led1, hloop⟩
  have hlen : ¬ L.length = 0 := by
    intro h0
    exact hne (List.length_eq_zero.mp h0)
  refine ⟨⟨DocTypeOrder, orderID, "shipment", L, sid, sorg, rid, rorg,
    rid ++ " (" ++ rorg ++ ")", StatusCreated, 0, 0, ctx.txId, ctx.ts, ctx.ts⟩,
    led1.putState ctx orderID
      (Order.toJDoc ⟨DocTypeOrder, orderID, "shipment", L, sid, sorg, rid, rorg,
        rid ++ " (" ++ rorg ++ ")", StatusCreated, 0, 0, ctx.txId, ctx.ts, ctx.ts⟩),
    ?_, ?_, rfl, rfl⟩
  · simp [CreateOrder, hfresh, hlen, hloop]
  · rcases (createOrderLoop_getState ctx led orderID L led led1 hloop S).2 hS with
      ⟨j0, hj0, hdt, hpost⟩
    rw [hjS] at hj0
    cases Option.some.inj hj0
    have hne2 : S ≠ orderID := by
      intro he
      rw [he, hfresh] at hjS
      exact absurd hjS (by simp)
    rw [getState_putState, if_neg hne2]
    exact hpost

/-- Witness for C9: the shipment `S1` is already claimed by order `OLD`;
creating order `O2` over it succeeds and rewrites `orderId` to `O2`. -/
theorem c9_witness :
    ∃ o led', CreateOrder ctx9 led9 "O2" (some ["S1"]) "snd" "OrgA" "rcv" "OrgB" =
        .ok (o, led') ∧
      led'.getState "S1" = some (inOrderShipment ctx9 "O2" ship9.toJDoc) ∧
      (inOrderShipment ctx9 "O2" ship9.toJDoc).orderId = "O2" ∧
      (inOrderShipment ctx9 "O2" ship9.toJDoc).status = StatusInOrder := by
  have h := c9_createOrder_overwrites_orderId ctx9 led9 "O2" "OLD" ["S1"] "S1"
    "snd" "OrgA" "rcv" "OrgB" ship9.toJDoc (by decide) (by decide) (by decide)
    (by decide) (by decide) (by decide) (by decide)
  exact h


/-! ### Claim C3: helper -/

/-- Under kind-respecting usage, no operation ever changes a non-empty
owning-parent field of a strip, box or carton document. -/
theorem stepT_preserves_parent_fields {ctx : TxCtx} {led led' : Ledger} (h : StepT ctx led led') :
    ∀ k j j', led.getState k = some j → led'.getState k = some j' →
      (j.docType = DocTypeStrip → j.boxId ≠ "" → j'.boxId = j.boxId) ∧
      (j.docType = DocTypeBox → j.cartonId ≠ "" → j'.cartonId = j.cartonId) ∧
      (j.docType = DocTypeCarton → j.shipmentId ≠ "" → j'.shipmentId = j.shipmentId) := by
  cases h with
  | createStrip id b m mf ex s hop =>
    intro k j j' hj hj'
    unfold CreateStrip at hop
    split at hop
    · exact absurd hop (by simp)
    next hex =>
      have h0 : led.getState id = none := Option.not_isSome_iff_eq_none.mp hex
      cases hop
      rw [getState_putState] at hj'
      by_cases hk : k = id
      · subst hk; rw [h0] at hj; exact absurd hj (by simp)
      · rw [if_neg hk] at hj'
        rw [hj] at hj'
        cases Option.some.inj hj'
        exact ⟨fun _ _ => rfl, fun _ _ => rfl, fun _ _ => rfl⟩
  | sealBox boxID ids b hkind hop =>
    intro k j j' hj hj'
    unfold SealBox at hop
    split at hop
    · exact absurd hop (by simp)
    next hex =>
      have h0 : led.getState boxID = none := Option.not_isSome_iff_eq_none.mp hex
      simp only at hop
      cases hloop : sealBoxLoop ctx led boxID ids led with
      | error e => rw [hloop] at hop; exact absurd hop (by simp)
      | ok led1 =>
        rw [hloop] at hop
        cases hop
        rw [getState_putState] at hj'
        by_cases hk : k = boxID
        · subst hk; rw [h0] at hj; exact absurd hj (by simp)
        · rw [if_neg hk] at hj'
          by_cases hmem : k ∈ ids
          · rcases (sealBoxLoop_getState ctx led boxID ids led led1 hloop k).2 hmem with
              ⟨j0, hj0, hb0, hpost⟩
            rw [hj0] at hj
            cases Option.some.inj hj
            rw [hpost] at hj'
            cases Option.some.inj hj'
            have hdt : j.docType = DocTypeStrip := hkind k hmem j hj0
            refine ⟨fun _ hne => absurd hb0 hne, fun hdt2 _ => ?_, fun hdt2 _ => ?_⟩
            · rw [hdt2] at hdt; exact absurd hdt (by decide)
            · rw [hdt2] at hdt; exact absurd hdt (by decide)
          · have hun := (sealBoxLoop_getState ctx led boxID ids led led1 hloop k).1 hmem
            rw [hun, hj] at hj'
            cases Option.some.inj hj'
            exact ⟨fun _ _ => rfl, fun _ _ => rfl, fun _ _ => rfl⟩
  | sealCarton cartonID ids c hkind hop =>
    intro k j j' hj hj'
    unfold SealCarton at hop
    split at hop
    · exact absurd hop (by simp)
    next hex =>
      have h0 : led.getState cartonID = none := Option.not_isSome_iff_eq_none.mp hex
      simp only at hop
      cases hloop : sealCartonLoop ctx led cartonID ids led with
      | error e => rw [hloop] at hop; exact absurd hop (by simp)
      | ok led1 =>
        rw [hloop] at hop
        cases hop
        rw [getState_putState] at hj'
        by_cases hk : k = cartonID
        · subst hk; rw [h0] at hj; exact absurd hj (by simp)
        · rw [if_neg hk] at hj'
          by_cases hmem : k ∈ ids
          · rcases (sealCartonLoop_getState ctx led cartonID ids led led1 hloop k).2 hmem with
              ⟨j0, hj0, hb0, hpost⟩
            rw [hj0] at hj
            cases Option.some.inj hj
            rw [hpost] at hj'
            cases Option.some.inj hj'
            have hdt : j.docType = DocTypeBox := hkind k hmem j hj0
            refine ⟨fun hdt2 _ => ?_, fun _ hne => absurd hb0 hne, fun hdt2 _ => ?_⟩
            · rw [hdt2] at hdt; exact absurd hdt (by decide)
            · rw [hdt2] at hdt; exact absurd hdt (by decide)
          · have hun := (sealCartonLoop_getState ctx led cartonID ids led led1 hloop k).1 hmem
            rw [hun, hj] at hj'
            cases Option.some.inj hj'
            exact ⟨fun _ _ => rfl, fun _ _ => rfl, fun _ _ => rfl⟩
  | sealShipment shipmentID ids s hkind hop =>
    intro k j j' hj hj'
    unfold SealShipment at hop
    split at hop
    · exact absurd hop (by simp)
    next hex =>
      have h0 : led.getState shipmentID = none := Option.not_isSome_iff_eq_none.mp hex
      simp only at hop
      cases hloop : sealShipmentLoop ctx led shipmentID ids led with
      | error e => rw [hloop] at hop; exact absurd hop (by simp)
      | ok led1 =>
        rw [hloop] at hop
        cases hop
        rw [getState_putState] at hj'
        by_cases hk : k = shipmentID
        · subst hk; rw [h0] at hj; exact absurd hj (by simp)
        · rw [if_neg hk] at hj'
          by_cases hmem : k ∈ ids
          · rcases (sealShipmentLoop_getState ctx led shipmentID ids led led1 hloop k).2 hmem with
              ⟨j0, hj0, hb0, hpost⟩
            rw [hj0] at hj
            cases Option.some.inj hj
            rw [hpost] at hj'
            cases Option.some.inj hj'
            have hdt : j.docType = DocTypeCarton := hkind k hmem j hj0
            refine ⟨fun hdt2 _ => ?_, fun hdt2 _ => ?_, fun _ hne => absurd hb0 hne⟩
            · rw [hdt2] at hdt; exact absurd hdt (by decide)
            · rw [hdt2] at hdt; exact absurd hdt (by decide)
          · have hun := (sealShipmentLoop_getState ctx led shipmentID ids led led1 hloop k).1 hmem
            rw [hun, hj] at hj'
            cases Option.some.inj hj'
            exact ⟨fun _ _ => rfl, fun _ _ => rfl, fun _ _ => rfl⟩
  | distributeShipment shipmentID dist s hkind hop =>
    intro k j j' hj hj'
    unfold DistributeShipment at hop
    split at hop
    · exact absurd hop (by simp)
    next j0 hj0 =>
      cases hop
      rw [getState_putState] at hj'
      by_cases hk : k = shipmentID
      · subst hk
        rw [if_pos rfl] at hj'
        cases Option.some.inj hj'
        rw [hj0] at hj
        cases Option.some.inj hj
        have hdt : j.docType = DocTypeShipment := hkind j hj0
        refine ⟨fun hdt2 _ => ?_, fun hdt2 _ => ?_, fun hdt2 _ => ?_⟩
        · rw [hdt2] at hdt; exact absurd hdt (by decide)
        · rw [hdt2] at hdt; exact absurd hdt (by decide)
        · rw [hdt2] at hdt; exact absurd hdt (by decide)
      · rw [if_neg hk] at hj'
        rw [hj] at hj'
        cases Option.some.inj hj'
        exact ⟨fun _ _ => rfl, fun _ _ => rfl, fun _ _ => rfl⟩
  | createOrder orderID ids sid sorg rid rorg o hop =>
    intro k j j' hj hj'
    unfold CreateOrder at hop
    split at hop
    · exact absurd hop (by simp)
    next hex =>
      have h0 : led.getState orderID = none := Option.not_isSome_iff_eq_none.mp hex
      cases ids with
      | none => exact absurd hop (by simp)
      | some L =>
        simp only at hop
        split at hop
        · exact absurd hop (by simp)
        next hlen =>
          cases hloop : createOrderLoop ctx led orderID L led with
          | error e => rw [hloop] at hop; exact absurd hop (by simp)
          | ok led1 =>
            rw [hloop] at hop
            cases hop
            rw [getState_putState] at hj'
            by_cases hk : k = orderID
            · subst hk; rw [h0] at hj; exact absurd hj (by simp)
            · rw [if_neg hk] at hj'
              by_cases hmem : k ∈ L
              · rcases (createOrderLoop_getState ctx led orderID L led led1 hloop k).2 hmem with
                  ⟨j0, hj0, hdt0, hpost⟩
                rw [hj0] at hj
                cases Option.some.inj hj
                rw [hpost] at hj'
                cases Option.some.inj hj'
                have hdt : j.docType = DocTypeShipment := hdt0
                refine ⟨fun hdt2 _ => ?_, fun hdt2 _ => ?_, fun hdt2 _ => ?_⟩
                · rw [hdt2] at hdt; exact absurd hdt (by decide)
                · rw [hdt2] at hdt; exact absurd hdt (by decide)
                · rw [hdt2] at hdt; exact absurd hdt (by decide)
              · have hun := (createOrderLoop_getState ctx led orderID L led led1 hloop k).1 hmem
                rw [hun, hj] at hj'
                cases Option.some.inj hj'
                exact ⟨fun _ _ => rfl, fun _ _ => rfl, fun _ _ => rfl⟩
  | dispatchOrder orderID o hkind hop =>
    intro k j j' hj hj'
    unfold DispatchOrder at hop
    split at hop
    · exact absurd hop (by simp)
    next j0 hj0 =>
      cases hop
      rw [getState_putState] at hj'
      by_cases hk : k = orderID
      · subst hk
        rw [if_pos rfl] at hj'
        cases Option.some.inj hj'
        rw [hj0] at hj
        cases Option.some.inj hj
        have hdt : j.docType = DocTypeOrder := hkind j hj0
        refine ⟨fun hdt2 _ => ?_, fun hdt2 _ => ?_, fun hdt2 _ => ?_⟩
        · rw [hdt2] at hdt; exact absurd hdt (by decide)
        · rw [hdt2] at hdt; exact absurd hdt (by decide)
        · rw [hdt2] at hdt; exact absurd hdt (by decide)
      · rw [if_neg hk] at hj'
        rw [hj] at hj'
        cases Option.some.inj hj'
        exact ⟨fun _ _ => rfl, fun _ _ => rfl, fun _ _ => rfl⟩
  | deliverOrder orderID o hkind hop =>
    intro k j j' hj hj'
    unfold DeliverOrder at hop
    split at hop
    · exact absurd hop (by simp)
    next j0 hj0 =>
      cases hop
      rw [getState_putState] at hj'
      by_cases hk : k = orderID
      · subst hk
        rw [if_pos rfl] at hj'
        cases Option.some.inj hj'
        rw [hj0] at hj
        cases Option.some.inj hj
        have hdt : j.docType = DocTypeOrder := hkind j hj0
        refine ⟨fun hdt2 _ => ?_, fun hdt2 _ => ?_, fun hdt2 _ => ?_⟩
        · rw [hdt2] at hdt; exact absurd hdt (by decide)
        · rw [hdt2] at hdt; exact absurd hdt (by decide)
        · rw [hdt2] at hdt; exact absurd hdt (by decide)
      · rw [if_neg hk] at hj'
        rw [hj] at hj'
        cases Option.some.inj hj'
        exact ⟨fun _ _ => rfl, fun _ _ => rfl, fun _ _ => rfl⟩


/-! ### Claim C3 -/

/-- Claim C3: a child whose owning-parent field is already non-empty cannot
be sealed into a second parent — the seal operation fails with an
`AlreadyAssigned` error carrying the existing parent's id (first three
conjuncts, one per containment level, assuming the operation reaches the
child, i.e. the children listed before it resolve and are unassigned, and
the new parent id is fresh); under kind-respecting usage no operation ever
overwrites a non-empty owning-parent field (fourth conjunct); and the
rendered error message names the existing parent's id (fifth conjunct). -/
theorem c3_alreadyAssigned_write_once :
    (∀ ctx led boxID L₁ c L₂ j,
        led.getState boxID = none →
        (∀ x ∈ L₁, ∃ jx, led.getState x = some jx ∧ jx.toStrip.boxId = "") →
        led.getState c = some j → j.toStrip.boxId ≠ "" →
        SealBox ctx led boxID (some (L₁ ++ c :: L₂)) =
          .error (.alreadyAssigned DocTypeStrip c DocTypeBox j.toStrip.boxId)) ∧
    (∀ ctx led cartonID L₁ c L₂ j,
        led.getState cartonID = none →
        (∀ x ∈ L₁, ∃ jx, led.getState x = some jx ∧ jx.toBox.cartonId = "") →
        led.getState c = some j → j.toBox.cartonId ≠ "" →
        SealCarton ctx led cartonID (some (L₁ ++ c :: L₂)) =
          .error (.alreadyAssigned DocTypeBox c DocTypeCarton j.toBox.cartonId)) ∧
    (∀ ctx led shipmentID L₁ c L₂ j,
        led.getState shipmentID = none →
        (∀ x ∈ L₁, ∃ jx, led.getState x = some jx ∧ jx.toCarton.shipmentId = "") →
        led.getState c = some j → j.toCarton.shipmentId ≠ "" →
        SealShipment ctx led shipmentID (some (L₁ ++ c :: L₂)) =
          .error (.alreadyAssigned DocTypeCarton c DocTypeShipment j.toCarton.shipmentId)) ∧
    (∀ ctx led led', StepT ctx led led' → ∀ k j j',
        led.getState k = some j → led'.getState k = some j' →
        (j.docType = DocTypeStrip → j.boxId ≠ "" → j'.boxId = j.boxId) ∧
        (j.docType = DocTypeBox → j.cartonId ≠ "" → j'.cartonId = j.cartonId) ∧
        (j.docType = DocTypeCarton → j.shipmentId ≠ "" → j'.shipmentId = j.shipmentId)) ∧
    (∀ ck c pk p, errText (.alreadyAssigned ck c pk p) =
        ck ++ " " ++ c ++ " is already in " ++ pk ++ " " ++ p) := by
  refine ⟨?_, ?_, ?_, ?_, fun _ _ _ _ => rfl⟩
  · intro ctx led boxID L₁ c L₂ j hfresh hall hc hb
    have herr := sealBoxLoop_error_assigned ctx led boxID L₁ c L₂ led j hall hc hb
    simp [SealBox, hfresh, herr]
  · intro ctx led cartonID L₁ c L₂ j hfresh hall hc hb
    have herr := sealCartonLoop_error_assigned ctx led cartonID L₁ c L₂ led j hall hc hb
    simp [SealCarton, hfresh, herr]
  · intro ctx led shipmentID L₁ c L₂ j hfresh hall hc hb
    have herr := sealShipmentLoop_error_assigned ctx led shipmentID L₁ c L₂ led j hall hc hb
    simp [SealShipment, hfresh, herr]
  · intro ctx led led' hstep k j j' hj hj'
    exact stepT_preserves_parent_fields hstep k j j' hj hj'

/-- Witness for C3: sealing the already-assigned strip `A1` into a second
box `B2` fails with `AlreadyAssigned` naming the existing box `B1`. -/
theorem c3_witness :
    SealBox ctx3 led3 "B2" (some ["A1"]) =
      .error (.alreadyAssigned DocTypeStrip "A1" DocTypeBox "B1") := by
  have h := c3_alreadyAssigned_write_once.1 ctx3 led3 "B2" [] "A1" []
    stripAssigned.toJDoc (by decide) (by simp) (by decide) (by decide)
  exact h


/-! ### Claim C1 -/

/-- Counterexample to claim C1: no operation enforces the status lattice and
there is no `InvalidState` error.  On a concrete ledger whose order `O1` has
status `DELIVERED`, `DispatchOrder` succeeds and writes status `DISPATCHED`
back (a regression); on a concrete ledger whose shipment `S8` has status
`SHIPPED`, `CreateOrder` over it succeeds and writes status `IN_ORDER` back. -/
theorem c1_counterexample :
    (ledC1.getState "O1").map JDoc.status = some StatusDelivered ∧
    resultStatus (DispatchOrder ctx1 ledC1 "O1") = some StatusDispatched ∧
    postStatusOf (DispatchOrder ctx1 ledC1 "O1") "O1" = some StatusDispatched ∧
    (ledC1b.getState "S8").map JDoc.status = some StatusShipped ∧
    postStatusOf (CreateOrder ctx1 ledC1b "O8" (some ["S8"]) "snd" "OA" "rcv" "OB") "S8" =
      some StatusInOrder := by
  exact ⟨by decide, by decide, by decide, by decide, by decide⟩

/-- Claim C1, amended: the sealing operations prevent status regression only
indirectly through their owning-parent checks (claim C3); the order and
distribution workflow performs no status check at all and no `InvalidState`
error exists.  `DispatchOrder` on any existing order — in particular one
whose status is `DELIVERED` — succeeds and overwrites the status with
`DISPATCHED`; `CreateOrder` over existing shipments — in particular one
whose status is `SHIPPED` — succeeds (given a fresh order id and a non-empty
list) and overwrites each referenced shipment's status with `IN_ORDER`. -/
theorem c1_amended (ctx : TxCtx) (led : Ledger) :
    (∀ oid j, led.getState oid = some j → j.status = StatusDelivered →
      DispatchOrder ctx led oid =
        .ok (dispatchedOrder ctx j, led.putState ctx oid (dispatchedOrder ctx j).toJDoc) ∧
      (dispatchedOrder ctx j).status = StatusDispatched) ∧
    (∀ orderID L S jS sid sorg rid rorg,
      led.getState orderID = none → L ≠ [] → S ∈ L →
      led.getState S = some jS → jS.status = StatusShipped →
      (∀ x ∈ L, ∃ jx, led.getState x = some jx ∧
        jx.toShipment.docType = DocTypeShipment) →
      ∃ o led', CreateOrder ctx led orderID (some L) sid sorg rid rorg = .ok (o, led') ∧
        (led'.getState S).map JDoc.status = some StatusInOrder) := by
  constructor
  · intro oid j hj hdel
    constructor
    · unfold DispatchOrder
      rw [hj]
    · rfl
  · intro orderID L S jS sid sorg rid rorg hfresh hne hS hjS hshipped hall
    rcases createOrderLoop_ok_of ctx led orderID L led hall with ⟨led1, hloop⟩
    have hlen : ¬ L.length = 0 := by
      intro h0
      exact hne (List.length_eq_zero.mp h0)
    refine ⟨⟨DocTypeOrder, orderID, "shipment", L, sid, sorg, rid, rorg,
      rid ++ " (" ++ rorg ++ ")", StatusCreated, 0, 0, ctx.txId, ctx.ts, ctx.ts⟩,
      led1.putState ctx orderID
        (Order.toJDoc ⟨DocTypeOrder, orderID, "shipment", L, sid, sorg, rid, rorg,
          rid ++ " (" ++ rorg ++ ")", StatusCreated, 0, 0, ctx.txId, ctx.ts, ctx.ts⟩),
      ?_, ?_⟩
    · simp [CreateOrder, hfresh, hlen, hloop]
    · rcases (createOrderLoop_getState ctx led orderID L led led1 hloop S).2 hS with
        ⟨j0, hj0, hdt, hpost⟩
      have hne2 : S ≠ orderID := by
        intro he
        rw [he, hfresh] at hjS
        exact absurd hjS (by simp)
      rw [getState_putState, if_neg hne2, hpost]
      rfl

/-- Witness for the amended C1 at the concrete regression scenarios. -/
theorem c1_witness :
    (DispatchOrder ctx1 ledC1 "O1" =
      .ok (dispatchedOrder ctx1 ordDelivered.toJDoc,
           ledC1.putState ctx1 "O1" (dispatchedOrder ctx1 ordDelivered.toJDoc).toJDoc) ∧
     (dispatchedOrder ctx1 ordDelivered.toJDoc).status = StatusDispatched) ∧
    (∃ o led', CreateOrder ctx1 ledC1b "O8" (some ["S8"]) "snd" "OA" "rcv" "OB" =
        .ok (o, led') ∧
      (led'.getState "S8").map JDoc.status = some StatusInOrder) := by
  have h := c1_amended ctx1 ledC1
  have h2 := c1_amended ctx1 ledC1b
  exact ⟨h.1 "O1" ordDelivered.toJDoc (by decide) (by decide),
         h2.2 "O8" ["S8"] "S8" shipShipped.toJDoc "snd" "OA" "rcv" "OB"
           (by decide) (by decide) (by decide) (by decide) (by decide) (by decide)⟩

/-! ### Claim C2 -/

/-- Counterexample to claim C2: `SealBox` has no emptiness check.  On the
empty ledger, sealing box `B1` over the empty strip list succeeds (no
`InvalidInput`), returns a box whose strip list is empty, and writes that box
to the ledger. -/
theorem c2_counterexample :
    isOkBox (SealBox ctx2 Ledger.empty "B1" (some [])) = true ∧
    boxStripsOf (SealBox ctx2 Ledger.empty "B1" (some [])) = some [] ∧
    (postStateOfBox (SealBox ctx2 Ledger.empty "B1" (some [])) "B1").isSome = true := by
  exact ⟨by decide, by decide, by decide⟩

/-- Claim C2, amended: of the two operations the claim mentions, only
`CreateOrder` rejects an empty id list (`InvalidInput`, message "at least one
shipment must be selected"); `SealBox` over an empty list and a fresh box id
succeeds and writes a box whose strip list is empty. -/
theorem c2_amended (ctx : TxCtx) (led : Ledger) :
    (∀ boxID, led.getState boxID = none →
      SealBox ctx led boxID (some []) =
        .ok (⟨DocTypeBox, boxID, [], "", StatusCreated, ctx.txId, ctx.ts, ctx.ts⟩,
             led.putState ctx boxID
               (Box.toJDoc ⟨DocTypeBox, boxID, [], "", StatusCreated, ctx.txId, ctx.ts, ctx.ts⟩))) ∧
    (∀ orderID sid sorg rid rorg, led.getState orderID = none →
      CreateOrder ctx led orderID (some []) sid sorg rid rorg = .error .emptyShipments) := by
  constructor
  · intro boxID hfresh
    simp [SealBox, hfresh, sealBoxLoop]
  · intro orderID sid sorg rid rorg hfresh
    simp [CreateOrder, hfresh]

/-- Witness for the amended C2 on the empty ledger. -/
theorem c2_witness :
    SealBox ctx2 Ledger.empty "B1" (some []) =
      .ok (⟨DocTypeBox, "B1", [], "", StatusCreated, "tx2", 4, 4⟩,
           Ledger.empty.putState ctx2 "B1"
             (Box.toJDoc ⟨DocTypeBox, "B1", [], "", StatusCreated, "tx2", 4, 4⟩)) ∧
    CreateOrder ctx2 Ledger.empty "O1" (some []) "s" "so" "r" "ro" =
      .error .emptyShipments := by
  have h := c2_amended ctx2 Ledger.empty
  exact ⟨h.1 "B1" (by decide), h.2 "O1" "s" "so" "r" "ro" (by decide)⟩


/-! ### Claim C5 -/

theorem histLatestValue_all_tomb (l : List HistEntry)
    (h : ∀ e ∈ l, e.isDelete = true) : histLatestValue l = none := by
  induction l with
  | nil => rfl
  | cons e rest ih =>
    unfold histLatestValue
    have he : e.isDelete = true := h e (List.mem_cons_self e rest)
    simp only [he]
    simp only [Bool.true_eq_false, false_and, if_false]
    exact ih (fun x hx => h x (List.mem_cons_of_mem _ hx))

theorem histLatestValue_first (pre : List HistEntry) (e : HistEntry) (post : List HistEntry)
    (hall : ∀ x ∈ pre, x.isDelete = true) (hd : e.isDelete = false)
    (hv : e.value.isSome) :
    histLatestValue (pre ++ e :: post) = e.value := by
  induction pre with
  | nil =>
    rw [List.nil_append]
    unfold histLatestValue
    simp [hd, hv]
  | cons x rest ih =>
    rw [List.cons_append]
    unfold histLatestValue
    have hx : x.isDelete = true := hall x (List.mem_cons_self x rest)
    simp only [hx, Bool.true_eq_false, false_and, if_false]
    exact ih (fun y hy => hall y (List.mem_cons_of_mem _ hy))

/-- Claim C5: `getLatestFromBlockchain` derives a key's latest value by
reading the whole change log (assumed newest first) and taking the first
entry that is not a tombstone; if the log is empty or every entry is a
tombstone, it reports the key as not found.  (The well-formedness hypothesis
says value-bearing entries carry a value, which holds of every ledger the
chaincode produces and of Fabric histories generally.)  On success the whole
log is returned alongside, rendered entry by entry. -/
theorem c5_latest_from_history (led : Ledger) (itemID : Key)
    (hwf : ∀ e ∈ led.getHistory itemID, e.isDelete = false → e.value.isSome) :
    ((∀ e ∈ led.getHistory itemID, e.isDelete = true) →
      getLatestFromBlockchain led itemID = .error (.notFoundInBlockchain itemID)) ∧
    (∀ pre e post, led.getHistory itemID = pre ++ e :: post →
      (∀ x ∈ pre, x.isDelete = true) → e.isDelete = false →
      ∃ v, e.value = some v ∧
        getLatestFromBlockchain led itemID =
          .ok (v, (led.getHistory itemID).map renderEntry)) := by
  constructor
  · intro halltomb
    simp [getLatestFromBlockchain, histLatestValue_all_tomb _ halltomb]
  · intro pre e post hsplit hpre hd
    have hmem : e ∈ led.getHistory itemID := by
      rw [hsplit]
      exact List.mem_append_right _ (List.mem_cons_self e post)
    have hv : e.value.isSome := hwf e hmem hd
    rcases Option.isSome_iff_exists.mp hv with ⟨v, hev⟩
    refine ⟨v, hev, ?_⟩
    have hlv : histLatestValue (led.getHistory itemID) = some v := by
      rw [hsplit, histLatestValue_first pre e post hpre hd hv]
      exact hev
    simp [getLatestFromBlockchain, hlv]

/-- Witness for C5 on a concrete ledger: key `X` (tombstone over a value)
resolves to the older value together with its full rendered log; key `Y`
(only a tombstone) is reported not found. -/
theorem c5_witness :
    (∃ v, (⟨"tx2x", 2, false, some doc5⟩ : HistEntry).value = some v ∧
      getLatestFromBlockchain led5 "X" =
        .ok (v, (led5.getHistory "X").map renderEntry)) ∧
    getLatestFromBlockchain led5 "Y" = .error (.notFoundInBlockchain "Y") := by
  constructor
  · exact (c5_latest_from_history led5 "X" (by decide)).2
      [⟨"tx3x", 3, true, none⟩] ⟨"tx2x", 2, false, some doc5⟩ [] (by decide)
      (by decide) (by decide)
  · exact (c5_latest_from_history led5 "Y" (by decide)).1 (by decide)


/-! ### Claim C7: helpers -/

theorem getData_of_histDoc {led : Ledger} {k : Key} {j : JDoc} (h : histDoc led k = some j) :
    getBlockchainItemData led k =
      .ok ⟨k, j.docType, j, (led.getHistory k).map renderEntry⟩ := by
  unfold histDoc getLatestFromBlockchain at h
  unfold getBlockchainItemData getLatestFromBlockchain
  cases hlv : histLatestValue (led.getHistory k) with
  | none => simp [hlv] at h
  | some v =>
    simp only [hlv] at h ⊢
    cases Option.some.inj h
    rfl

theorem getData_of_histDoc_none {led : Ledger} {k : Key} (h : histDoc led k = none) :
    getBlockchainItemData led k = .error (.notFoundInBlockchain k) := by
  unfold histDoc getLatestFromBlockchain at h
  unfold getBlockchainItemData getLatestFromBlockchain
  cases hlv : histLatestValue (led.getHistory k) with
  | none => simp [hlv]
  | some v => simp [hlv] at h

theorem filterMap_data_ids (led : Ledger) (l : List String) :
    ((l.filterMap (fun a => (getBlockchainItemData led a).toOption)).map
      BlockchainItemData.itemId) = l.filter (fun a => histOK led a) := by
  induction l with
  | nil => rfl
  | cons a rest ih =>
    by_cases h : histOK led a
    · rcases Option.isSome_iff_exists.mp h with ⟨j, hj⟩
      have hfa : (getBlockchainItemData led a).toOption =
          some ⟨a, j.docType, j, (led.getHistory a).map renderEntry⟩ := by
        rw [getData_of_histDoc hj]
        rfl
      rw [List.filterMap_cons, hfa, List.filter_cons]
      simp [h, ih]
    · have hnone : histDoc led a = none := Option.not_isSome_iff_eq_none.mp h
      have hfa : (getBlockchainItemData led a).toOption = none := by
        rw [getData_of_histDoc_none hnone]
        rfl
      rw [List.filterMap_cons, hfa, List.filter_cons]
      simp [h, ih]

theorem getBoxChildren_ids (led : Ledger) (b : JDoc) :
    (getBoxChildrenFromBlockchain led b).map BlockchainItemData.itemId =
      b.strips.filter (fun a => histOK led a) := by
  unfold getBoxChildrenFromBlockchain
  exact filterMap_data_ids led b.strips


theorem cartonChildren_ids_aux (led : Ledger) (l : List String) :
    ((l.flatMap (fun boxID =>
        match getBlockchainItemData led boxID with
        | .error _ => []
        | .ok boxData => boxData :: getBoxChildrenFromBlockchain led boxData.current)).map
      BlockchainItemData.itemId) =
      l.flatMap (fun b => if histOK led b then b :: specBoxSubtreeIds led b else []) := by
  induction l with
  | nil => rfl
  | cons b rest ih =>
    rw [List.flatMap_cons, List.flatMap_cons, List.map_append, ih]
    congr 1
    by_cases h : histOK led b
    · rcases Option.isSome_iff_exists.mp h with ⟨j, hj⟩
      rw [getData_of_histDoc hj]
      simp only [h, if_true, List.map_cons]
      have hsub : specBoxSubtreeIds led b = j.strips.filter (fun a => histOK led a) := by
        unfold specBoxSubtreeIds
        rw [hj]
      rw [hsub]
      have hbc := getBoxChildren_ids led j
      exact congrArg (fun t => b :: t) hbc
    · have hnone : histDoc led b = none := Option.not_isSome_iff_eq_none.mp h
      rw [getData_of_histDoc_none hnone]
      simp [h]

theorem getCartonChildren_ids (led : Ledger) (c : JDoc) :
    (getCartonChildrenFromBlockchain led c).map BlockchainItemData.itemId =
      c.boxes.flatMap (fun b => if histOK led b then b :: specBoxSubtreeIds led b else []) := by
  unfold getCartonChildrenFromBlockchain
  exact cartonChildren_ids_aux led c.boxes

theorem shipmentChildren_ids_aux (led : Ledger) (l : List String) :
    ((l.flatMap (fun cartonID =>
        match getBlockchainItemData led cartonID with
        | .error _ => []
        | .ok cartonData => cartonData :: getCartonChildrenFromBlockchain led cartonData.current)).map
      BlockchainItemData.itemId) =
      l.flatMap (fun c => if histOK led c then c :: specCartonSubtreeIds led c else []) := by
  induction l with
  | nil => rfl
  | cons c rest ih =>
    rw [List.flatMap_cons, List.flatMap_cons, List.map_append, ih]
    congr 1
    by_cases h : histOK led c
    · rcases Option.isSome_iff_exists.mp h with ⟨j, hj⟩
      rw [getData_of_histDoc hj]
      simp only [h, if_true, List.map_cons]
      have hsub : specCartonSubtreeIds led c =
          j.boxes.flatMap (fun b => if histOK led b then b :: specBoxSubtreeIds led b else []) := by
        unfold specCartonSubtreeIds
        rw [hj]
      rw [hsub]
      have hbc := getCartonChildren_ids led j
      exact congrArg (fun t => c :: t) hbc
    · have hnone : histDoc led c = none := Option.not_isSome_iff_eq_none.mp h
      rw [getData_of_histDoc_none hnone]
      simp [h]

theorem getShipmentChildren_ids (led : Ledger) (s : JDoc) :
    (getShipmentChildrenFromBlockchain led s).map BlockchainItemData.itemId =
      s.cartons.flatMap (fun c => if histOK led c then c :: specCartonSubtreeIds led c else []) := by
  unfold getShipmentChildrenFromBlockchain
  exact shipmentChildren_ids_aux led s.cartons

theorem orderChildren_ids_aux (led : Ledger) (l : List String) :
    ((l.flatMap (fun itemID =>
        match getBlockchainItemData led itemID with
        | .error _ => []
        | .ok itemData =>
          if itemData.current.docType = DocTypeShipment then
            itemData :: getShipmentChildrenFromBlockchain led itemData.current
          else [itemData])).map
      BlockchainItemData.itemId) =
      l.flatMap (fun sid =>
        match histDoc led sid with
        | none => []
        | some d =>
          if d.docType = DocTypeShipment then sid :: specShipmentSubtreeIds led sid
          else [sid]) := by
  induction l with
  | nil => rfl
  | cons sid rest ih =>
    rw [List.flatMap_cons, List.flatMap_cons, List.map_append, ih]
    congr 1
    cases hj : histDoc led sid with
    | none =>
      rw [getData_of_histDoc_none hj]
      rfl
    | some j =>
      rw [getData_of_histDoc hj]
      by_cases hdt : j.docType = DocTypeShipment
      · simp only [hdt, if_pos rfl, List.map_cons]
        have hsub : specShipmentSubtreeIds led sid =
            j.cartons.flatMap
              (fun c => if histOK led c then c :: specCartonSubtreeIds led c else []) := by
          unfold specShipmentSubtreeIds
          rw [hj]
        rw [hsub]
        have hbc := getShipmentChildren_ids led j
        exact congrArg (fun t => sid :: t) hbc
      · simp only [hdt, if_neg, List.map_cons, List.map_nil]
        simp [hdt]

theorem getOrderChildren_ids (led : Ledger) (o : JDoc) :
    (getOrderChildrenFromBlockchain led o).map BlockchainItemData.itemId =
      o.itemIds.flatMap (fun sid =>
        match histDoc led sid with
        | none => []
        | some d =>
          if d.docType = DocTypeShipment then sid :: specShipmentSubtreeIds led sid
          else [sid]) := by
  unfold getOrderChildrenFromBlockchain
  exact orderChildren_ids_aux led o.itemIds


theorem flatMap_congr_mem {α β : Type} (l : List α) (f g : α → List β)
    (h : ∀ x ∈ l, f x = g x) : l.flatMap f = l.flatMap g := by
  induction l with
  | nil => rfl
  | cons a rest ih =>
    rw [List.flatMap_cons, List.flatMap_cons, h a (List.mem_cons_self a rest),
        ih (fun x hx => h x (List.mem_cons_of_mem _ hx))]

theorem scanBarcode_order (led : Ledger) (oid : Key) (j : JDoc)
    (hj : led.getState oid = some j) (hdt : j.docType = DocTypeOrder) :
    ScanBarcode led oid =
      .ok ⟨j.docType, some j.toOrder.toJDoc, none, none, none,
           some (getOrderItems led j.toOrder)⟩ := by
  unfold ScanBarcode
  rw [hj]
  simp only [hdt]
  rw [if_neg (show ¬ (DocTypeOrder = DocTypeStrip) from by decide),
      if_neg (show ¬ (DocTypeOrder = DocTypeBox) from by decide),
      if_neg (show ¬ (DocTypeOrder = DocTypeCarton) from by decide),
      if_neg (show ¬ (DocTypeOrder = DocTypeShipment) from by decide)]
  simp

theorem getOrderItems_ids_aux (led : Ledger) (l : List String)
    (hall : ∀ s ∈ l, ∃ js, led.getState s = some js ∧ js.id = s) :
    ((l.filterMap (fun itemID => led.getState itemID)).map JDoc.id) = l := by
  induction l with
  | nil => rfl
  | cons a rest ih =>
    rcases hall a (List.mem_cons_self a rest) with ⟨ja, hja, hid⟩
    rw [List.filterMap_cons, hja]
    simp only [List.map_cons, hid]
    rw [ih (fun s hs => hall s (List.mem_cons_of_mem _ hs))]

/-! ### Claim C7 -/

/-- Claim C7: on an order whose referenced shipments exist (world state and
history), the current-state walk (`ScanBarcode`) returns as descendants
exactly the directly referenced shipments, one level deep — its child list is
the one-level fetch and its ids are exactly `itemIds` — while the
history-based walk returns each shipment followed by that shipment's entire
carton/box/strip subtree. -/
theorem c7_order_descendants (led : Ledger) (oid : Key) (j : JDoc)
    (hj : led.getState oid = some j) (hdt : j.docType = DocTypeOrder)
    (hscan : ∀ s ∈ j.itemIds, ∃ js, led.getState s = some js ∧ js.id = s)
    (hhist : ∀ s ∈ j.itemIds, ∃ d, histDoc led s = some d ∧ d.docType = DocTypeShipment) :
    (ScanBarcode led oid =
      .ok ⟨j.docType, some j.toOrder.toJDoc, none, none, none,
           some (getOrderItems led j.toOrder)⟩ ∧
     scanChildIds ⟨j.docType, some j.toOrder.toJDoc, none, none, none,
           some (getOrderItems led j.toOrder)⟩ = j.itemIds) ∧
    (getOrderChildrenFromBlockchain led j).map BlockchainItemData.itemId =
      j.itemIds.flatMap (fun sid => sid :: specShipmentSubtreeIds led sid) := by
  refine ⟨⟨scanBarcode_order led oid j hj hdt, ?_⟩, ?_⟩
  · unfold scanChildIds
    simp only [Option.getD_some]
    exact getOrderItems_ids_aux led j.itemIds hscan
  · rw [getOrderChildren_ids]
    apply flatMap_congr_mem
    intro sid hs
    rcases hhist sid hs with ⟨d, hd, hdt2⟩
    rw [hd]
    simp [hdt2]

/-- Witness for C7 on the concrete five-level chain
`O1 → S1 → C1 → B1 → A1`. -/
theorem c7_witness :
    (ScanBarcode led7 "O1" =
      .ok ⟨jO7.docType, some jO7.toOrder.toJDoc, none, none, none,
           some (getOrderItems led7 jO7.toOrder)⟩ ∧
     scanChildIds ⟨jO7.docType, some jO7.toOrder.toJDoc, none, none, none,
           some (getOrderItems led7 jO7.toOrder)⟩ = jO7.itemIds) ∧
    (getOrderChildrenFromBlockchain led7 jO7).map BlockchainItemData.itemId =
      jO7.itemIds.flatMap (fun sid => sid :: specShipmentSubtreeIds led7 sid) := by
  refine c7_order_descendants led7 "O1" jO7 (by decide) (by decide) ?_ ?_
  · intro s hs
    have hs1 : s = "S1" := by
      cases hs with
      | head => rfl
      | tail _ h => exact absurd h (List.not_mem_nil s)
    subst hs1
    exact ⟨shipS7.toJDoc, by decide, by decide⟩
  · intro s hs
    have hs1 : s = "S1" := by
      cases hs with
      | head => rfl
      | tail _ h => exact absurd h (List.not_mem_nil s)
    subst hs1
    exact ⟨shipS7.toJDoc, by decide, by decide⟩


/-! ### Claim C6 -/

/-- Counterexample to claim C6: on the concrete five-level chain, looking up
order `O1` by its creation transaction id resolves to `O1`, but the full
trace `GetTraceByTxHash` returns is the history-based one, whose descendant
ids are the entire subtree `[S1, C1, B1, A1]`, while `ScanBarcode O1`
returns only the one-level descendants `[S1]`: the two traces differ. -/
theorem c6_counterexample :
    txTraceItemId (GetTraceByTxHash led7 "t5") = some "O1" ∧
    txTraceChildIds (GetTraceByTxHash led7 "t5") = some ["S1", "C1", "B1", "A1"] ∧
    scanChildIdsOf (ScanBarcode led7 "O1") = some ["S1"] ∧
    (["S1", "C1", "B1", "A1"] : List String) ≠ ["S1"] := by
  exact ⟨by decide, by decide, by decide, by decide⟩

/-- Claim C6, amended: for every entity found by the primary `creationTxId`
lookup, `GetTraceByTxHash` resolves to that entity (the transaction info
names the entity's id and document) and the full trace it returns equals the
history-based trace `GetFullTraceFromBlockchain` of that entity's id — not
the current-state `ScanBarcode` trace, from which it differs on orders by
recursion depth. -/
theorem c6_amended (led : Ledger) (txHash : String) (item : JDoc)
    (tr : BlockchainTraceResult)
    (hfind : GetItemByCreationTxHash led txHash = .ok item)
    (htr : GetFullTraceFromBlockchain led item.id = .ok tr) :
    GetTraceByTxHash led txHash =
      .ok ⟨⟨txHash,
            ((led.getHistory item.id).find? (fun e => e.txId = txHash)).map (fun e => e.ts),
            item.id, item.docType, false, some item⟩, tr⟩ := by
  unfold GetTraceByTxHash
  rw [hfind]
  simp only [htr]

/-- Witness for the amended C6: the concrete primary-path lookup of `O1`. -/
theorem c6_witness :
    GetTraceByTxHash led7 "t5" =
      .ok ⟨⟨"t5",
            ((led7.getHistory jO7.id).find? (fun e => e.txId = "t5")).map (fun e => e.ts),
            jO7.id, jO7.docType, false, some jO7⟩, tr7⟩ :=
  c6_amended led7 "t5" jO7 tr7 rfl rfl

end Pharma
